import Mathlib

/-!
Verification of the seller-profile reconciliation and rollup engine.

This file gives a shallow embedding, in Lean 4, of the stateful core of the
transcript-analysis service (the Go functions `processIssues`, `isSameIssue`,
`severityLevel`, `updateTrends`, `calculateTrendDirection`,
`calculateCurrentStatus`, `updateIssueStats`, `UpdateSellerProfile` from
`config.go`, and `buildAggregate`, `generateTickets`, `sanitize` from
`service.go`), together with theorems settling the behavioural claims about
that core.

Modelling conventions:
- Go `time.Time` values are modelled as natural numbers (`Time`); the
  date-formatting call `Format("2006-01-02")` is modelled by an abstract
  rendering function `formatDate` (no claim depends on the rendered text).
- Go `float64` is modelled as `ℚ`; for the quantities involved (small sums,
  halves and tenths) the rational arithmetic mirrors the source exactly.
- Go maps that the source iterates over are modelled as association lists in
  first-insertion order (a Go map holds exactly one entry per distinct key;
  iteration order is unspecified in Go, so one concrete order is fixed here).
- The `LLMRaw map[string]interface{}` field is modelled by the only two keys
  the core reads from it, as two optional booleans.
- Presentation-only string fields assembled by `fmt.Sprintf` for human display
  (ticket `Title`/`Description`) are not modelled; no claim mentions them.
-/

/-- Go `time.Time`, modelled as an abstract instant (a natural number). -/
abbrev Time := Nat

/-- Models `Timestamp.Format("2006-01-02")`: an abstract rendering of an
instant used only as an opaque label on trend points. -/
def formatDate (t : Time) : String :=
  Nat.repr t

/-- `Issue` from `service.go`: a single problem extracted from one call. -/
structure Issue where
  problem : String
  bucket : String
  severity : String
  actionableSummary : String
  keywords : List String
deriving DecidableEq, Repr

/-- `SellerIntent` from `service.go`. -/
structure SellerIntent where
  sentiment : String
  satisfactionScore : Int
  promptResolution : Bool
  overallExperience : String
deriving DecidableEq, Repr

/-- `ChurnPrediction` from `service.go`. -/
structure ChurnPrediction where
  isLikelyToChurn : String
  renewalAtRisk : Bool
  dissatisfactionLevel : String
  churnReason : String
  renewalProbability : ℚ
deriving DecidableEq, Repr

/-- `UpsellScore` from `service.go`. -/
structure UpsellScore where
  hasOpportunity : Bool
  score : Int
  willingnessToInvest : String
  isGrowthOriented : Bool
  interestedFeatures : List String
  upsellReason : String
deriving DecidableEq, Repr

/-- `AnalysisResult` from `service.go`.  The `LLMRaw` JSON map is modelled by
the two boolean keys the profile code reads (`escalation_required`,
`follow_up_needed`); a key that is absent or not a boolean is `none`. -/
structure AnalysisResult where
  callID : String
  sellerID : String
  timestamp : Time
  transcriptEn : String
  originalLang : String
  issues : List Issue
  intent : SellerIntent
  churn : ChurnPrediction
  upsell : UpsellScore
  callSummary : String
  agentPerformance : String
  llmEscalationRequired : Option Bool
  llmFollowUpNeeded : Option Bool
  analyzedAt : Time
deriving DecidableEq, Repr

/-- `TrackedIssue` from `config.go`: an issue with lifecycle tracking. -/
structure TrackedIssue where
  issueID : String
  problem : String
  bucket : String
  severity : String
  actionRequired : String
  status : String
  firstReportedAt : Time
  lastMentionedAt : Time
  resolvedAt : Option Time
  mentionCount : Nat
  callIDs : List String
  isRecurring : Bool
deriving DecidableEq, Repr

/-- `CallSummary` from `config.go`: a compact per-call record. -/
structure CallSummary where
  callID : String
  timestamp : Time
  duration : Int
  direction : String
  summary : String
  sentiment : String
  issuesRaised : Nat
  issuesResolved : Nat
  agentPerformance : String
  wasEscalated : Bool
  followUpNeeded : Bool
deriving DecidableEq, Repr

/-- `SellerStatus` from `config.go`: the dashboard-header snapshot. -/
structure SellerStatus where
  healthScore : Int
  healthLabel : String
  churnRisk : String
  churnProbability : ℚ
  sentiment : String
  satisfactionScore : Int
  openIssueCount : Nat
  upsellPotential : String
  needsAttention : Bool
  attentionReason : String
deriving DecidableEq, Repr

/-- `TrendPoint` from `config.go`. -/
structure TrendPoint where
  date : String
  value : ℚ
  label : String
  callID : String
deriving DecidableEq, Repr

/-- `SellerTrends` from `config.go`. -/
structure SellerTrends where
  sentimentHistory : List TrendPoint
  satisfactionHistory : List TrendPoint
  issueHistory : List TrendPoint
  sentimentTrend : String
  satisfactionTrend : String
  overallTrend : String
  churnRiskHistory : List TrendPoint
deriving DecidableEq, Repr

/-- `BucketCount` from `config.go`. -/
structure BucketCount where
  bucket : String
  count : Nat
deriving DecidableEq, Repr

/-- `IssueStatistics` from `config.go`.  The `SeverityBreakdown` Go map is an
association list in first-insertion order. -/
structure IssueStatistics where
  totalIssuesEver : Nat
  currentOpenCount : Nat
  resolvedCount : Nat
  recurringCount : Nat
  avgResolutionDays : ℚ
  topBuckets : List BucketCount
  severityBreakdown : List (String × Nat)
deriving DecidableEq, Repr

/-- `SellerCategory` from `watcher.go`. -/
structure SellerCategory where
  mcatID : String
  mcatName : String
deriving DecidableEq, Repr

/-- The fields of `HackathonTranscript` (`watcher.go`) that
`UpdateSellerProfile` reads. -/
structure HackathonTranscript where
  gluserID : String
  vintageMonths : Int
  customerType : String
  cityName : String
  iilVerticalName : String
  flagInOut : String
  callDuration : Int
  sellerCategories : List SellerCategory
deriving DecidableEq, Repr

/-- `SellerProfile` from `config.go`: the master record for a seller. -/
structure SellerProfile where
  gluserID : String
  customerType : String
  cityName : String
  vertical : String
  vintageMonths : Int
  currentStatus : SellerStatus
  totalCalls : Nat
  callHistory : List CallSummary
  activeIssues : List TrackedIssue
  resolvedIssues : List TrackedIssue
  issueStats : IssueStatistics
  trends : SellerTrends
  sellerCategories : List String
  createdAt : Time
  updatedAt : Time
  lastCallAt : Time
deriving DecidableEq, Repr

/-- `severityLevel` from `config.go`: severity string to numeric level. -/
def severityLevel (sev : String) : Nat :=
  if sev = "critical" then 4
  else if sev = "high" then 3
  else if sev = "medium" then 2
  else if sev = "low" then 1
  else 0

/-- `isSameIssue` from `config.go`: two issues are the same tracked issue
iff they carry the same bucket. -/
def isSameIssue (tracked : TrackedIssue) (is : Issue) : Bool :=
  tracked.bucket == is.bucket

/-- The issue-identifier string `fmt.Sprintf("%s-%s-%d", gluserID, callID,
len(profile.ActiveIssues))` from `processIssues` in `config.go`. -/
def issueIDString (gluserID callID : String) (n : Nat) : String :=
  gluserID ++ "-" ++ callID ++ "-" ++ Nat.repr n

/-- The matched-issue update in `processIssues` (`config.go`): refresh the
last-mention time, bump the mention count, append the call id, recompute the
recurrence flag, and escalate (never downgrade) severity. -/
def updateExistingIssue (t : TrackedIssue) (is : Issue) (callID : String)
    (now : Time) : TrackedIssue :=
  { t with
    lastMentionedAt := now
    mentionCount := t.mentionCount + 1
    callIDs := t.callIDs ++ [callID]
    isRecurring := decide (2 ≤ t.mentionCount + 1)
    severity :=
      if severityLevel t.severity < severityLevel is.severity then is.severity
      else t.severity }

/-- The new-tracked-issue construction in `processIssues` (`config.go`). -/
def newTrackedIssue (gluserID callID : String) (idx : Nat) (is : Issue)
    (now : Time) : TrackedIssue :=
  { issueID := issueIDString gluserID callID idx
    problem := is.problem
    bucket := is.bucket
    severity := is.severity
    actionRequired := is.actionableSummary
    status := "open"
    firstReportedAt := now
    lastMentionedAt := now
    resolvedAt := none
    mentionCount := 1
    callIDs := [callID]
    isRecurring := false }

/-- The scan for `matchedIdx` in `processIssues` (`config.go`): find the first
active issue matching the reported one and update it in place, returning the
updated list and the matched issue's id; `none` when nothing matches. -/
def updateFirstMatch (is : Issue) (callID : String) (now : Time) :
    List TrackedIssue → Option (List TrackedIssue × String)
  | [] => none
  | t :: ts =>
    if isSameIssue t is then
      some (updateExistingIssue t is callID now :: ts, t.issueID)
    else
      match updateFirstMatch is callID now ts with
      | some (ts', matchedID) => some (t :: ts', matchedID)
      | none => none

/-- One iteration of the per-issue loop in `processIssues` (`config.go`):
state is the running active-issue list and the set of issue ids mentioned in
this call (the Go `mentionedIssues` map, as a list whose membership matters). -/
def processIssuesStep (gluserID callID : String) (now : Time)
    (st : List TrackedIssue × List String) (is : Issue) :
    List TrackedIssue × List String :=
  match updateFirstMatch is callID now st.1 with
  | some (act, matchedID) => (act, st.2 ++ [matchedID])
  | none =>
    let t := newTrackedIssue gluserID callID st.1.length is now
    (st.1 ++ [t], st.2 ++ [t.issueID])

/-- The full per-issue loop of `processIssues` (`config.go`), phase one:
fold the reported issues over the active-issue list. -/
def processIssuesLoop (gluserID callID : String) (now : Time)
    (issues : List Issue) (act : List TrackedIssue) :
    List TrackedIssue × List String :=
  issues.foldl (processIssuesStep gluserID callID now) (act, [])

/-- The resolved-issue marking in `processIssues` (`config.go`). -/
def markResolved (now : Time) (t : TrackedIssue) : TrackedIssue :=
  { t with status := "resolved", resolvedAt := some now }

/-- The resolution sweep of `processIssues` (`config.go`), phase two: split
the active issues into the still-active ones (mentioned this call) and the
newly resolved ones, also counting the latter (the Go `resolvedCount`). -/
def resolveUnmentioned (mentioned : List String) (now : Time) :
    List TrackedIssue → List TrackedIssue × List TrackedIssue × Nat
  | [] => ([], [], 0)
  | t :: ts =>
    let r := resolveUnmentioned mentioned now ts
    if t.issueID ∈ mentioned then (t :: r.1, r.2.1, r.2.2)
    else (r.1, markResolved now t :: r.2.1, r.2.2 + 1)

/-- `processIssues` from `config.go`: match/update/create tracked issues for
one call, then (only when the call signalled prompt resolution and some issue
is active) resolve every active issue not mentioned in this call.  Returns
the updated profile and the number of issues resolved this call. -/
def processIssues (p : SellerProfile) (a : AnalysisResult) (now : Time) :
    SellerProfile × Nat :=
  let r1 := processIssuesLoop p.gluserID a.callID now a.issues p.activeIssues
  if a.intent.promptResolution ∧ 0 < r1.1.length then
    let r2 := resolveUnmentioned r1.2 now r1.1
    ({ p with activeIssues := r2.1,
              resolvedIssues := p.resolvedIssues ++ r2.2.1 }, r2.2.2)
  else
    ({ p with activeIssues := r1.1 }, 0)

/-- The sentiment-to-value mapping in `updateTrends` (`config.go`); the Go
`switch` leaves the zero value `0.0` for any other string. -/
def sentimentValue (sentiment : String) : ℚ :=
  if sentiment = "Positive" then 1
  else if sentiment = "Neutral" then 1/2
  else if sentiment = "Negative" then 0
  else 0

/-- The churn-tier-to-value mapping in `updateTrends` (`config.go`). -/
def churnValue (tier : String) : ℚ :=
  if tier = "high" then 1
  else if tier = "medium" then 1/2
  else if tier = "low" then 0
  else 0

/-- `calculateTrendDirection` from `config.go`: fewer than 2 points is
"stable"; otherwise compare the averages of the first and second halves of
the last 3 (or fewer) points.  The Go index loop `if i < mid` accumulates
exactly the sums of `recentPoints[:mid]` and `recentPoints[mid:]`. -/
def calculateTrendDirection (points : List TrendPoint) : String :=
  if points.length < 2 then "stable"
  else
    let n := points.length
    let recentPoints := points.drop (n - 3)
    let mid0 := recentPoints.length / 2
    let mid := if mid0 = 0 then 1 else mid0
    let firstHalf := ((recentPoints.take mid).map (·.value)).sum / (mid : ℚ)
    let secondHalf :=
      ((recentPoints.drop mid).map (·.value)).sum /
        ((recentPoints.length - mid : Nat) : ℚ)
    let diff := secondHalf - firstHalf
    if 1/10 < diff then "improving"
    else if diff < -(1/10) then "declining"
    else "stable"

/-- `updateTrends` from `config.go`: append one point per metric, recompute
the sentiment and satisfaction trends, and derive the overall trend from the
issue-count trend with polarity inverted (falling back to the sentiment trend
when the issue trend is stable). -/
def updateTrends (p : SellerProfile) (a : AnalysisResult) : SellerProfile :=
  let date := formatDate a.timestamp
  let sentimentHistory := p.trends.sentimentHistory ++
    [{ date := date, value := sentimentValue a.intent.sentiment,
       label := a.intent.sentiment, callID := a.callID }]
  let satisfactionHistory := p.trends.satisfactionHistory ++
    [{ date := date, value := (a.intent.satisfactionScore : ℚ),
       label := "", callID := a.callID }]
  let issueHistory := p.trends.issueHistory ++
    [{ date := date, value := (a.issues.length : ℚ),
       label := "", callID := a.callID }]
  let churnRiskHistory := p.trends.churnRiskHistory ++
    [{ date := date, value := churnValue a.churn.isLikelyToChurn,
       label := a.churn.isLikelyToChurn, callID := a.callID }]
  let sentimentTrend := calculateTrendDirection sentimentHistory
  let satisfactionTrend := calculateTrendDirection satisfactionHistory
  let issueTrend := calculateTrendDirection issueHistory
  let overallTrend :=
    if issueTrend = "declining" then "improving"
    else if issueTrend = "improving" then "declining"
    else sentimentTrend
  { p with trends :=
    { sentimentHistory := sentimentHistory
      satisfactionHistory := satisfactionHistory
      issueHistory := issueHistory
      churnRiskHistory := churnRiskHistory
      sentimentTrend := sentimentTrend
      satisfactionTrend := satisfactionTrend
      overallTrend := overallTrend } }

/-- The recurring-issue count loop in `calculateCurrentStatus`
(`config.go`). -/
def recurringCountOf (issues : List TrackedIssue) : Nat :=
  (issues.filter (·.isRecurring)).length

/-- `calculateCurrentStatus` from `config.go`: compute the dashboard-header
snapshot, including the composite 0-100 health score, its label, and the
single-reason needs-attention decision. -/
def calculateCurrentStatus (p : SellerProfile) (a : AnalysisResult) :
    SellerProfile :=
  let sentiment := a.intent.sentiment
  let satisfactionScore := a.intent.satisfactionScore
  let churnRisk := a.churn.isLikelyToChurn
  let openIssueCount := p.activeIssues.length
  let upsellPotential :=
    if a.upsell.hasOpportunity then a.upsell.willingnessToInvest else "low"
  let score0 : Int := 50
  let score1 := score0 +
    (if sentiment = "Positive" then 20
     else if sentiment = "Negative" then -20 else 0)
  let score2 := score1 + (satisfactionScore - 5) * 4
  let score3 := score2 +
    (if churnRisk = "low" then 15
     else if churnRisk = "high" then -25 else 0)
  let issueImpact : Int :=
    if 30 < (openIssueCount : Int) * 5 then 30 else (openIssueCount : Int) * 5
  let score4 := score3 - issueImpact
  let recurringCount := recurringCountOf p.activeIssues
  let score5 := score4 - (recurringCount : Int) * 10
  let score6 := score5 +
    (if p.trends.overallTrend = "improving" then 10
     else if p.trends.overallTrend = "declining" then -10 else 0)
  let score7 := if score6 < 0 then 0 else score6
  let score := if 100 < score7 then 100 else score7
  let healthLabel :=
    if 70 ≤ score then "Healthy"
    else if 40 ≤ score then "At Risk"
    else "Critical"
  let attention : Bool × String :=
    if score < 40 then (true, "Critical health score")
    else if churnRisk = "high" then (true, "High churn risk")
    else if 0 < recurringCount then
      (true, Nat.repr recurringCount ++ " recurring unresolved issues")
    else if p.trends.overallTrend = "declining" then
      (true, "Declining trend detected")
    else (false, "")
  { p with currentStatus :=
    { healthScore := score
      healthLabel := healthLabel
      churnRisk := churnRisk
      churnProbability := a.churn.renewalProbability
      sentiment := sentiment
      satisfactionScore := satisfactionScore
      openIssueCount := openIssueCount
      upsellPotential := upsellPotential
      needsAttention := attention.1
      attentionReason := attention.2 } }

/-- Descending order on bucket counts, the comparator passed to `sort.Slice`
in `updateIssueStats` (`config.go`). -/
def bucketCountGE (x y : BucketCount) : Prop :=
  y.count ≤ x.count

instance : DecidableRel bucketCountGE := fun x y =>
  inferInstanceAs (Decidable (y.count ≤ x.count))

instance : IsTotal BucketCount bucketCountGE :=
  ⟨fun x y => Nat.le_total y.count x.count⟩

instance : IsTrans BucketCount bucketCountGE :=
  ⟨fun _ _ _ h h' => Nat.le_trans h' h⟩

/-- `updateIssueStats` from `config.go`: recompute the statistics panel.  The
Go `bucketCounts` map holds, per distinct bucket, the number of tracked
issues (active and resolved) carrying that bucket; it is modelled as the
first-occurrence-ordered association of distinct buckets to those counts.
`sort.Slice` is modelled by a sort with the same comparator. -/
def updateIssueStats (p : SellerProfile) : SellerProfile :=
  let allIssues := p.activeIssues ++ p.resolvedIssues
  let resolvedDays : ℚ :=
    (p.resolvedIssues.map (fun t =>
      match t.resolvedAt with
      | some rt => (((rt : Int) - (t.firstReportedAt : Int) : Int) : ℚ) / 24
      | none => 0)).sum
  let avgResolutionDays :=
    if 0 < p.resolvedIssues.length then
      resolvedDays / (p.resolvedIssues.length : ℚ)
    else 0
  let buckets := (allIssues.map (·.bucket)).dedup
  let bucketEntries : List BucketCount := buckets.map (fun b =>
    { bucket := b, count := (allIssues.filter (fun t => t.bucket == b)).length })
  let sorted := bucketEntries.insertionSort bucketCountGE
  let severities := (p.activeIssues.map (·.severity)).dedup
  let severityBreakdown := severities.map (fun s =>
    (s, (p.activeIssues.filter (fun t => t.severity == s)).length))
  { p with issueStats :=
    { totalIssuesEver := p.activeIssues.length + p.resolvedIssues.length
      currentOpenCount := p.activeIssues.length
      resolvedCount := p.resolvedIssues.length
      recurringCount := recurringCountOf p.activeIssues
      avgResolutionDays := avgResolutionDays
      topBuckets := sorted.take 5
      severityBreakdown := severityBreakdown } }

/-- The fresh-profile construction in `UpdateSellerProfile` (`config.go`);
unset Go fields carry their zero values. -/
def newSellerProfile (gluserID : String) (now : Time) : SellerProfile :=
  { gluserID := gluserID
    customerType := ""
    cityName := ""
    vertical := ""
    vintageMonths := 0
    currentStatus :=
      { healthScore := 0, healthLabel := "", churnRisk := "",
        churnProbability := 0, sentiment := "", satisfactionScore := 0,
        openIssueCount := 0, upsellPotential := "", needsAttention := false,
        attentionReason := "" }
    totalCalls := 0
    callHistory := []
    activeIssues := []
    resolvedIssues := []
    issueStats :=
      { totalIssuesEver := 0, currentOpenCount := 0, resolvedCount := 0,
        recurringCount := 0, avgResolutionDays := 0, topBuckets := [],
        severityBreakdown := [] }
    trends :=
      { sentimentHistory := [], satisfactionHistory := [], issueHistory := [],
        sentimentTrend := "", satisfactionTrend := "", overallTrend := "",
        churnRiskHistory := [] }
    sellerCategories := []
    createdAt := now
    updatedAt := 0
    lastCallAt := 0 }

/-- The transcript-metadata update in `UpdateSellerProfile` (`config.go`). -/
def applyTranscript (p : SellerProfile) :
    Option HackathonTranscript → SellerProfile
  | none => p
  | some ht =>
    { p with customerType := ht.customerType
             cityName := ht.cityName
             vertical := ht.iilVerticalName
             vintageMonths := ht.vintageMonths
             sellerCategories := ht.sellerCategories.map (·.mcatName) }

/-- The call-summary construction in `UpdateSellerProfile` (`config.go`). -/
def mkCallSummary (a : AnalysisResult) (ht : Option HackathonTranscript) :
    CallSummary :=
  { callID := a.callID
    timestamp := a.timestamp
    duration := match ht with | some h => h.callDuration | none => 0
    direction := match ht with | some h => h.flagInOut | none => ""
    summary := a.callSummary
    sentiment := a.intent.sentiment
    issuesRaised := a.issues.length
    issuesResolved := 0
    agentPerformance := a.agentPerformance
    wasEscalated := a.llmEscalationRequired.getD false
    followUpNeeded := a.llmFollowUpNeeded.getD false }

/-- `UpdateSellerProfile` from `config.go`, as a pure state transformer: the
loaded (or freshly created) profile is folded with one call analysis.  The
trailing `updatedAt := now` models `SaveSellerProfile` stamping
`profile.UpdatedAt = time.Now()` on the way out; `now` stands for every
`time.Now()` read during the one reconciliation. -/
def updateSellerProfile (old : Option SellerProfile) (gluserID : String)
    (a : AnalysisResult) (ht : Option HackathonTranscript) (now : Time) :
    SellerProfile :=
  let p0 := old.getD (newSellerProfile gluserID now)
  let p1 := applyTranscript p0 ht
  let p2 := { p1 with
    callHistory := mkCallSummary a ht :: p1.callHistory
    totalCalls := p1.totalCalls + 1
    lastCallAt := a.timestamp }
  let r := processIssues p2 a now
  let p3 := { r.1 with
    callHistory :=
      r.1.callHistory.modifyHead (fun c => { c with issuesResolved := r.2 }) }
  let p4 := updateTrends p3 a
  let p5 := calculateCurrentStatus p4 a
  let p6 := updateIssueStats p5
  { p6 with updatedAt := now }

/-- One reconciliation request: a call analysis, optional transcript
metadata, and the wall-clock instant at which the update runs. -/
structure ReconcileStep where
  analysis : AnalysisResult
  ht : Option HackathonTranscript
  now : Time
deriving DecidableEq, Repr

/-- A sequence of reconciliations against one seller's profile, starting from
`acc` (`none` models a seller with no stored profile yet). -/
def runSellerProfile (gluserID : String) :
    Option SellerProfile → List ReconcileStep → Option SellerProfile
  | acc, [] => acc
  | acc, s :: rest =>
    runSellerProfile gluserID
      (some (updateSellerProfile acc gluserID s.analysis s.ht s.now)) rest

/-- `ProblemCount` from `service.go`. -/
structure ProblemCount where
  problem : String
  count : Nat
  severity : String
deriving DecidableEq, Repr

/-- `BucketSummary` from `service.go`.  The `SeverityBreakdown` Go map is an
association list in first-insertion order. -/
structure BucketSummary where
  bucket : String
  totalCount : Nat
  affectedSellers : Nat
  topProblems : List ProblemCount
  severityBreakdown : List (String × Nat)
  examples : List String
deriving DecidableEq, Repr

/-- `DailyAggregate` from `service.go`.  The Go maps (`FeatureBuckets` and
the two breakdowns) are association lists in first-insertion order. -/
structure DailyAggregate where
  date : String
  totalCalls : Nat
  totalIssues : Nat
  featureBuckets : List (String × BucketSummary)
  sentimentBreakdown : List (String × Nat)
  churnRiskBreakdown : List (String × Nat)
  upsellOpportunities : Nat
  avgSatisfaction : ℚ
  generatedAt : Time
deriving DecidableEq, Repr

/-- `Ticket` from `service.go`.  The presentation-only `Title` and
`Description` strings are not modelled. -/
structure Ticket where
  ticketID : String
  date : String
  featureBucket : String
  priority : Nat
  topProblems : List ProblemCount
  affectedCount : Nat
  examples : List String
  severity : String
  status : String
  createdAt : Time
deriving DecidableEq, Repr

/-- Descending order on per-problem counts, the comparator passed to
`sort.Slice` over a bucket's problems in `buildAggregate` (`service.go`). -/
def problemCountGE (x y : String × Nat) : Prop :=
  y.2 ≤ x.2

instance : DecidableRel problemCountGE := fun x y =>
  inferInstanceAs (Decidable (y.2 ≤ x.2))

instance : IsTotal (String × Nat) problemCountGE :=
  ⟨fun x y => Nat.le_total y.2 x.2⟩

instance : IsTrans (String × Nat) problemCountGE :=
  ⟨fun _ _ _ h h' => Nat.le_trans h' h⟩

/-- The satisfaction accumulation loop of `buildAggregate` (`service.go`):
`totalSatisfaction` and `satisfactionCount` take contributions only from
analyses with `SatisfactionScore > 0`. -/
def satisfactionTotals (analyses : List AnalysisResult) : Int × Nat :=
  analyses.foldl
    (fun st a =>
      if 0 < a.intent.satisfactionScore then
        (st.1 + a.intent.satisfactionScore, st.2 + 1)
      else st)
    (0, 0)

/-- The per-bucket summary construction of `buildAggregate` (`service.go`),
for one bucket `b` given the day's `(sellerID, issue)` pairs: problems are
tallied and sorted by count descending, the top 5 retained, and the bucket's
`TotalCount` is the sum of only those retained counts. -/
def buildBucketSummary (b : String) (pairs : List (String × Issue)) :
    BucketSummary :=
  let inBucket := pairs.filter (fun pr => pr.2.bucket == b)
  let problems := (inBucket.map (·.2.problem)).dedup
  let problemTallies : List (String × Nat) := problems.map (fun pb =>
    (pb, (inBucket.filter (fun pr => pr.2.problem == pb)).length))
  let sorted := problemTallies.insertionSort problemCountGE
  let topProblems := (sorted.take 5).map (fun kv =>
    { problem := kv.1, count := kv.2, severity := "medium" : ProblemCount })
  let severities := (inBucket.map (·.2.severity)).dedup
  { bucket := b
    totalCount := ((sorted.take 5).map (·.2)).sum
    affectedSellers := (inBucket.map (·.1)).dedup.length
    topProblems := topProblems
    severityBreakdown := severities.map (fun s =>
      (s, (inBucket.filter (fun pr => pr.2.severity == s)).length))
    examples := (inBucket.map (·.2.actionableSummary)).take 3 }

/-- `buildAggregate` from `service.go`: fold one operational period's call
analyses into a `DailyAggregate`. -/
def buildAggregate (date : String) (analyses : List AnalysisResult) :
    DailyAggregate :=
  let sentiments := (analyses.map (·.intent.sentiment)).filter (· ≠ "")
  let churns := (analyses.map (·.churn.isLikelyToChurn)).filter (· ≠ "")
  let issuePairs := analyses.flatMap (fun a =>
    a.issues.map (fun is => (a.sellerID, is)))
  let buckets := (issuePairs.map (·.2.bucket)).dedup
  let st := satisfactionTotals analyses
  { date := date
    totalCalls := analyses.length
    totalIssues := issuePairs.length
    featureBuckets := buckets.map (fun b => (b, buildBucketSummary b issuePairs))
    sentimentBreakdown := sentiments.dedup.map (fun s =>
      (s, (sentiments.filter (· == s)).length))
    churnRiskBreakdown := churns.dedup.map (fun s =>
      (s, (churns.filter (· == s)).length))
    upsellOpportunities := (analyses.filter (·.upsell.hasOpportunity)).length
    avgSatisfaction := if 0 < st.2 then (st.1 : ℚ) / (st.2 : ℚ) else 0
    generatedAt := 0 }

/-- `sanitize` from the utility source file: keep letters and digits, replace
every other character with an underscore.  (Go's `unicode.IsLetter` /
`unicode.IsDigit` are modelled by the corresponding `Char` predicates.) -/
def sanitize (s : String) : String :=
  String.mk (s.data.map (fun r =>
    if r.isAlpha || r.isDigit then r else '_'))

/-- Descending order on bucket total counts, the comparator passed to
`sort.Slice` over `significantBuckets` in `generateTickets`
(`service.go`). -/
def bucketTotalGE (x y : String × BucketSummary) : Prop :=
  y.2.totalCount ≤ x.2.totalCount

instance : DecidableRel bucketTotalGE := fun x y =>
  inferInstanceAs (Decidable (y.2.totalCount ≤ x.2.totalCount))

instance : IsTotal (String × BucketSummary) bucketTotalGE :=
  ⟨fun x y => Nat.le_total y.2.totalCount x.2.totalCount⟩

instance : IsTrans (String × BucketSummary) bucketTotalGE :=
  ⟨fun _ _ _ h h' => Nat.le_trans h' h⟩

/-- The ticket construction in `generateTickets` (`service.go`): severity is
derived from the bucket's total count (≥10 critical, ≥5 high, else medium). -/
def mkTicket (date : String) (priority : Nat) (entry : String × BucketSummary) :
    Ticket :=
  { ticketID := date ++ "-" ++ sanitize entry.1 ++ "-01"
    date := date
    featureBucket := entry.1
    priority := priority
    topProblems := entry.2.topProblems
    affectedCount := entry.2.totalCount
    examples := entry.2.examples
    severity :=
      if 10 ≤ entry.2.totalCount then "critical"
      else if 5 ≤ entry.2.totalCount then "high"
      else "medium"
    status := "open"
    createdAt := 0 }

/-- The emission loop of `generateTickets` (`service.go`): walk the sorted
significant buckets, stopping once `maxTickets = 5` tickets exist, assigning
priorities from the running counter. -/
def ticketsLoop (date : String) :
    Nat → Nat → List (String × BucketSummary) → List Ticket
  | _, _, [] => []
  | priority, count, e :: es =>
    if 5 ≤ count then []
    else mkTicket date priority e :: ticketsLoop date (priority + 1) (count + 1) es

/-- `generateTickets` from `service.go`: keep the buckets whose `TotalCount`
is at least `minBucketCount = 3`, sort them by total count descending, and
emit at most 5 tickets with priorities 1, 2, ... in that order. -/
def generateTickets (date : String) (agg : DailyAggregate) : List Ticket :=
  let significantBuckets :=
    agg.featureBuckets.filter (fun e => 3 ≤ e.2.totalCount)
  let sorted := significantBuckets.insertionSort bucketTotalGE
  ticketsLoop date 1 0 sorted

/-- The clamp-then-label tail of `calculateCurrentStatus`, proved for an
arbitrary unclamped score.  The clamped score is within [0, 100] and the
label agrees with the documented thresholds. -/
theorem clampLabelSpec (x : Int) :
    let score : Int := if 100 < (if x < 0 then 0 else x) then 100
      else if x < 0 then 0 else x
    let label := if 70 ≤ score then "Healthy"
      else if 40 ≤ score then "At Risk" else "Critical"
    (0 ≤ score ∧ score ≤ 100)
    ∧ (label = "Healthy" ↔ 70 ≤ score)
    ∧ (label = "At Risk" ↔ 40 ≤ score ∧ score < 70)
    ∧ (label = "Critical" ↔ score < 40) := by
  dsimp only
  split_ifs <;>
    refine ⟨by omega, ?_, ?_, ?_⟩ <;>
    constructor <;>
    intro h <;>
    first
      | rfl
      | omega
      | exact absurd h (by decide)

/-- Claim C3: for every profile and call analysis, the health score computed
by `calculateCurrentStatus` is an integer in [0, 100], and the label is
"Healthy" iff the score is at least 70, "At Risk" iff it is in [40, 70), and
"Critical" iff it is below 40. -/
theorem calculateCurrentStatus_score_label (p : SellerProfile)
    (a : AnalysisResult) :
    let st := (calculateCurrentStatus p a).currentStatus
    (0 ≤ st.healthScore ∧ st.healthScore ≤ 100)
    ∧ (st.healthLabel = "Healthy" ↔ 70 ≤ st.healthScore)
    ∧ (st.healthLabel = "At Risk" ↔ 40 ≤ st.healthScore ∧ st.healthScore < 70)
    ∧ (st.healthLabel = "Critical" ↔ st.healthScore < 40) := by
  dsimp only [calculateCurrentStatus]
  exact clampLabelSpec _

/-- The needs-attention tail of `calculateCurrentStatus`, proved for
arbitrary inputs: the first matching rule, in priority order, supplies the
single reason, and no rule matching leaves the flag off with an empty
reason. -/
theorem attentionSpec (score : Int) (churn : String) (rc : Nat)
    (trend : String) :
    let att : Bool × String :=
      if score < 40 then (true, "Critical health score")
      else if churn = "high" then (true, "High churn risk")
      else if 0 < rc then
        (true, Nat.repr rc ++ " recurring unresolved issues")
      else if trend = "declining" then (true, "Declining trend detected")
      else (false, "")
    (score < 40 → att.1 = true ∧ att.2 = "Critical health score")
    ∧ (40 ≤ score → churn = "high" →
        att.1 = true ∧ att.2 = "High churn risk")
    ∧ (40 ≤ score → churn ≠ "high" → 0 < rc →
        att.1 = true ∧ att.2 = Nat.repr rc ++ " recurring unresolved issues")
    ∧ (40 ≤ score → churn ≠ "high" → rc = 0 → trend = "declining" →
        att.1 = true ∧ att.2 = "Declining trend detected")
    ∧ (40 ≤ score → churn ≠ "high" → rc = 0 → trend ≠ "declining" →
        att.1 = false ∧ att.2 = "") := by
  dsimp only
  refine ⟨?_, ?_, ?_, ?_, ?_⟩ <;>
    intros <;>
    split_ifs <;>
    simp_all <;>
    omega

/-- Claim C4: the needs-attention decision of `calculateCurrentStatus`
records at most one reason, chosen in strict priority order: a health score
below 40 wins over high churn risk, which wins over a positive
recurring-issue count, which wins over a declining overall trend; when no
rule matches, the flag is off and the reason empty.  In particular a profile
with both score < 40 and high churn risk reports only the critical-score
reason (first conjunct, which does not inspect the churn tier). -/
theorem calculateCurrentStatus_attention (p : SellerProfile)
    (a : AnalysisResult) :
    let st := (calculateCurrentStatus p a).currentStatus
    let rc := recurringCountOf p.activeIssues
    (st.healthScore < 40 →
      st.needsAttention = true ∧ st.attentionReason = "Critical health score")
    ∧ (40 ≤ st.healthScore → a.churn.isLikelyToChurn = "high" →
        st.needsAttention = true ∧ st.attentionReason = "High churn risk")
    ∧ (40 ≤ st.healthScore → a.churn.isLikelyToChurn ≠ "high" → 0 < rc →
        st.needsAttention = true ∧
        st.attentionReason = Nat.repr rc ++ " recurring unresolved issues")
    ∧ (40 ≤ st.healthScore → a.churn.isLikelyToChurn ≠ "high" → rc = 0 →
        p.trends.overallTrend = "declining" →
        st.needsAttention = true ∧
        st.attentionReason = "Declining trend detected")
    ∧ (40 ≤ st.healthScore → a.churn.isLikelyToChurn ≠ "high" → rc = 0 →
        p.trends.overallTrend ≠ "declining" →
        st.needsAttention = false ∧ st.attentionReason = "") := by
  dsimp only [calculateCurrentStatus]
  exact attentionSpec _ _ _ _

/-- Summing the values of trend points that all carry the same value. -/
theorem sum_map_value_const {l : List TrendPoint} {v : ℚ}
    (h : ∀ p ∈ l, p.value = v) :
    (l.map (·.value)).sum = l.length * v := by
  induction l with
  | nil => simp
  | cons p rest ih =>
    simp only [List.map_cons, List.sum_cons, List.length_cons]
    rw [h p (by simp), ih (fun q hq => h q (by simp [hq]))]
    push_cast
    ring

/-- Claim C5: `calculateTrendDirection` yields "stable" on fewer than 2
points; otherwise it inspects only the last 3 points, splits them into a
first half of size `max 1 ⌊n/2⌋` and the rest, averages each half, and
answers "improving" when the difference exceeds 1/10, "declining" when it is
below -1/10, and "stable" otherwise; a constant-valued sequence is "stable".
The function is deterministic by construction (it is a pure function of its
input list). -/
theorem calculateTrendDirection_spec (pts : List TrendPoint) :
    (pts.length < 2 → calculateTrendDirection pts = "stable")
    ∧ (2 ≤ pts.length →
        calculateTrendDirection pts =
          (let recent := pts.drop (pts.length - 3)
           let mid := max 1 (recent.length / 2)
           let firstAvg := ((recent.take mid).map (·.value)).sum / (mid : ℚ)
           let secondAvg := ((recent.drop mid).map (·.value)).sum /
             ((recent.length - mid : Nat) : ℚ)
           if 1/10 < secondAvg - firstAvg then "improving"
           else if secondAvg - firstAvg < -(1/10) then "declining"
           else "stable"))
    ∧ (2 ≤ pts.length →
        calculateTrendDirection pts =
          calculateTrendDirection (pts.drop (pts.length - 3)))
    ∧ (∀ v : ℚ, (∀ p ∈ pts, p.value = v) →
        calculateTrendDirection pts = "stable") := by
  have hmax : ∀ m : Nat, (if m = 0 then 1 else m) = max 1 m := by
    intro m; split <;> omega
  refine ⟨?_, ?_, ?_, ?_⟩
  · intro h
    simp only [calculateTrendDirection, if_pos h]
  · intro h
    simp only [calculateTrendDirection, if_neg (by omega : ¬pts.length < 2)]
    rw [hmax]
  · intro h
    have hlen : (pts.drop (pts.length - 3)).length = pts.length - (pts.length - 3) :=
      List.length_drop _ _
    have h2 : 2 ≤ (pts.drop (pts.length - 3)).length := by omega
    have h0 : (pts.drop (pts.length - 3)).length - 3 = 0 := by omega
    simp only [calculateTrendDirection, if_neg (by omega : ¬pts.length < 2),
      if_neg (by omega : ¬(pts.drop (pts.length - 3)).length < 2), h0,
      List.drop_zero]
  · intro v hv
    by_cases h : pts.length < 2
    · simp only [calculateTrendDirection, if_pos h]
    · simp only [calculateTrendDirection, if_neg h]
      have hrec : ∀ p ∈ pts.drop (pts.length - 3), p.value = v :=
        fun p hp => hv p (List.mem_of_mem_drop hp)
      have hrecLen : 2 ≤ (pts.drop (pts.length - 3)).length := by
        have := List.length_drop (pts.length - 3) pts
        omega
      set recent := pts.drop (pts.length - 3) with hrecentDef
      set mid := if recent.length / 2 = 0 then 1 else recent.length / 2 with hmid
      have hmid1 : 1 ≤ mid := by rw [hmid]; split <;> omega
      have hmidlt : mid < recent.length := by rw [hmid]; split <;> omega
      have htake : ((recent.take mid).map (·.value)).sum =
          (recent.take mid).length * v :=
        sum_map_value_const (fun p hp => hrec p (List.mem_of_mem_take hp))
      have hdrop : ((recent.drop mid).map (·.value)).sum =
          (recent.drop mid).length * v :=
        sum_map_value_const (fun p hp => hrec p (List.mem_of_mem_drop hp))
      rw [htake, hdrop, List.length_take, List.length_drop]
      have hminEq : min mid recent.length = mid := by omega
      rw [hminEq]
      have hc1 : ((mid : ℚ)) ≠ 0 := by
        exact_mod_cast (by omega : mid ≠ 0)
      have hc2 : (((recent.length - mid : Nat)) : ℚ) ≠ 0 := by
        exact_mod_cast (by omega : recent.length - mid ≠ 0)
      rw [mul_div_cancel_left₀ v hc1, mul_div_cancel_left₀ v hc2]
      norm_num

/-- Claim C6: after `updateTrends`, the overall trend equals the trend of the
(just-extended) issue-count series with polarity inverted — an issue trend of
"declining" gives overall "improving" and vice versa — except when the issue
trend is "stable", in which case the overall trend equals the sentiment
trend.  The first two conjuncts pin down which series and which sentiment
trend are meant. -/
theorem updateTrends_overallTrend (p : SellerProfile) (a : AnalysisResult) :
    let t := (updateTrends p a).trends
    let issueTrend := calculateTrendDirection t.issueHistory
    (t.issueHistory = p.trends.issueHistory ++
      [{ date := formatDate a.timestamp, value := (a.issues.length : ℚ),
         label := "", callID := a.callID }])
    ∧ t.sentimentTrend = calculateTrendDirection t.sentimentHistory
    ∧ t.overallTrend =
        (if issueTrend = "declining" then "improving"
         else if issueTrend = "improving" then "declining"
         else t.sentimentTrend) :=
  ⟨rfl, rfl, rfl⟩

/-- The satisfaction accumulator equals the sum and count over exactly the
analyses with a positive satisfaction score. -/
theorem satisfactionTotals_eq (analyses : List AnalysisResult) :
    satisfactionTotals analyses =
      (((analyses.filter (fun a => decide (0 < a.intent.satisfactionScore))).map
          (·.intent.satisfactionScore)).sum,
       (analyses.filter (fun a => decide (0 < a.intent.satisfactionScore))).length) := by
  suffices h : ∀ (t : Int) (c : Nat),
      analyses.foldl
        (fun st a =>
          if 0 < a.intent.satisfactionScore then
            (st.1 + a.intent.satisfactionScore, st.2 + 1)
          else st)
        (t, c) =
      (t + ((analyses.filter (fun a => decide (0 < a.intent.satisfactionScore))).map
          (·.intent.satisfactionScore)).sum,
       c + (analyses.filter (fun a => decide (0 < a.intent.satisfactionScore))).length) by
    simpa [satisfactionTotals] using h 0 0
  induction analyses with
  | nil => simp
  | cons a rest ih =>
    intro t c
    by_cases hpos : 0 < a.intent.satisfactionScore <;>
      simp [List.filter_cons, hpos, ih, add_assoc, add_comm, add_left_comm]

/-- Claim C10: the period summary's average satisfaction is the mean of the
satisfaction scores over exactly the analyses whose score is strictly
positive; analyses with score at most 0 contribute to neither the numerator
nor the denominator, and when no analysis has a positive score the average
is 0. -/
theorem buildAggregate_avgSatisfaction (date : String)
    (analyses : List AnalysisResult) :
    let pos := analyses.filter (fun a => decide (0 < a.intent.satisfactionScore))
    (buildAggregate date analyses).avgSatisfaction =
      if pos.length = 0 then 0
      else ((pos.map (·.intent.satisfactionScore)).sum : ℚ) / (pos.length : ℚ) := by
  dsimp only [buildAggregate]
  rw [satisfactionTotals_eq]
  by_cases h : (analyses.filter
      (fun a => decide (0 < a.intent.satisfactionScore))).length = 0 <;>
    simp [h, Nat.pos_iff_ne_zero, Function.comp_def]

/-- The ticket-emission loop produces at most `5 - count` tickets. -/
theorem ticketsLoop_length (date : String) :
    ∀ (es : List (String × BucketSummary)) (priority count : Nat),
      (ticketsLoop date priority count es).length ≤ 5 - count
  | [], _, _ => by simp [ticketsLoop]
  | e :: es, priority, count => by
    rw [ticketsLoop]
    split
    · simp
    · have ih := ticketsLoop_length date es (priority + 1) (count + 1)
      simp only [List.length_cons]
      omega

/-- Every ticket the loop emits is built from some listed bucket entry. -/
theorem ticketsLoop_mem (date : String) :
    ∀ (es : List (String × BucketSummary)) (priority count : Nat),
      ∀ t ∈ ticketsLoop date priority count es,
        ∃ e ∈ es, ∃ k, t = mkTicket date k e
  | [], _, _ => by simp [ticketsLoop]
  | e :: es, priority, count => by
    rw [ticketsLoop]
    split
    · simp
    · intro t ht
      rcases List.mem_cons.mp ht with h | h
      · exact ⟨e, by simp, priority, h⟩
      · obtain ⟨e', he', k, hk⟩ := ticketsLoop_mem date es (priority + 1) (count + 1) t h
        exact ⟨e', by simp [he'], k, hk⟩

/-- The loop preserves descending order of total counts. -/
theorem ticketsLoop_pairwise (date : String) :
    ∀ (es : List (String × BucketSummary)) (priority count : Nat),
      es.Pairwise bucketTotalGE →
      (ticketsLoop date priority count es).Pairwise
        (fun x y => y.affectedCount ≤ x.affectedCount)
  | [], _, _ => by simp [ticketsLoop]
  | e :: es, priority, count => by
    intro hp
    rw [ticketsLoop]
    split
    · simp
    · rcases List.pairwise_cons.mp hp with ⟨hhead, htail⟩
      refine List.pairwise_cons.mpr ⟨?_, ?_⟩
      · intro t ht
        obtain ⟨e', he', _, hk⟩ :=
          ticketsLoop_mem date es (priority + 1) (count + 1) t ht
        rw [hk]
        exact hhead e' he'
      · exact ticketsLoop_pairwise date es (priority + 1) (count + 1) htail

/-- The loop assigns consecutive priorities starting at its counter. -/
theorem ticketsLoop_priorities (date : String) :
    ∀ (es : List (String × BucketSummary)) (priority count : Nat),
      (ticketsLoop date priority count es).map (·.priority) =
        List.range' priority (ticketsLoop date priority count es).length
  | [], _, _ => by simp [ticketsLoop]
  | e :: es, priority, count => by
    rw [ticketsLoop]
    split
    · simp
    · simp only [List.map_cons, List.length_cons, List.range'_succ]
      rw [ticketsLoop_priorities date es (priority + 1) (count + 1)]
      rfl

/-- Claim C2: `generateTickets` returns at most 5 tickets; every ticket comes
from a bucket entry of the period summary with `totalCount ≥ 3`, carrying
that bucket's name and total count; tickets are ordered by descending total
count; priorities are 1, 2, ..., k in that rank order; and each ticket's
severity is "critical" when its total count is at least 10, "high" when at
least 5, and "medium" otherwise. -/
theorem generateTickets_spec (date : String) (agg : DailyAggregate) :
    let ts := generateTickets date agg
    ts.length ≤ 5
    ∧ (∀ t ∈ ts, ∃ e ∈ agg.featureBuckets,
        t.featureBucket = e.1 ∧ t.affectedCount = e.2.totalCount ∧
        3 ≤ e.2.totalCount)
    ∧ ts.Pairwise (fun x y => y.affectedCount ≤ x.affectedCount)
    ∧ ts.map (·.priority) = List.range' 1 ts.length
    ∧ (∀ t ∈ ts, t.severity =
        if 10 ≤ t.affectedCount then "critical"
        else if 5 ≤ t.affectedCount then "high"
        else "medium") := by
  dsimp only [generateTickets]
  refine ⟨?_, ?_, ?_, ?_, ?_⟩
  · have h := ticketsLoop_length date
      ((agg.featureBuckets.filter (fun e => 3 ≤ e.2.totalCount)).insertionSort
        bucketTotalGE) 1 0
    omega
  · intro t ht
    obtain ⟨e, he, k, hk⟩ := ticketsLoop_mem date _ 1 0 t ht
    have hmem : e ∈ agg.featureBuckets.filter (fun e => 3 ≤ e.2.totalCount) :=
      (List.perm_insertionSort bucketTotalGE _).mem_iff.mp he
    rcases List.mem_filter.mp hmem with ⟨hmem', hpred⟩
    exact ⟨e, hmem', by rw [hk]; exact rfl, by rw [hk]; exact rfl,
      by simpa using hpred⟩
  · exact ticketsLoop_pairwise date _ 1 0
      (List.sorted_insertionSort bucketTotalGE _)
  · exact ticketsLoop_priorities date _ 1 0
  · intro t ht
    obtain ⟨e, he, k, hk⟩ := ticketsLoop_mem date _ 1 0 t ht
    rw [hk]
    rfl

/-- Claim C8, amended: after `updateIssueStats`, `top_buckets` lists at most
5 categories drawn from the tracked issues (active and resolved), ranked by
descending count, where each listed category's count is the number of
tracked issues in that category (not the sum of their mention counts), and
every unlisted category has an issue count no larger than any listed one. -/
theorem updateIssueStats_topBuckets (p : SellerProfile) :
    let allIssues := p.activeIssues ++ p.resolvedIssues
    let tb := (updateIssueStats p).issueStats.topBuckets
    tb.length ≤ 5
    ∧ tb.Pairwise (fun x y => y.count ≤ x.count)
    ∧ (∀ bc ∈ tb, bc.bucket ∈ allIssues.map (·.bucket) ∧
        bc.count = (allIssues.filter (fun t => t.bucket == bc.bucket)).length)
    ∧ (∀ b ∈ allIssues.map (·.bucket), b ∉ tb.map (·.bucket) →
        ∀ bc ∈ tb,
          (allIssues.filter (fun t => t.bucket == b)).length ≤ bc.count) := by
  dsimp only [updateIssueStats]
  set allIssues := p.activeIssues ++ p.resolvedIssues with hall
  set entries : List BucketCount := ((allIssues.map (·.bucket)).dedup).map
    (fun b => { bucket := b,
                count := (allIssues.filter (fun t => t.bucket == b)).length })
    with hentries
  set sorted := entries.insertionSort bucketCountGE with hsorted
  have hperm : List.Perm sorted entries := List.perm_insertionSort bucketCountGE entries
  have hpw : sorted.Pairwise bucketCountGE :=
    List.sorted_insertionSort bucketCountGE entries
  have hmemEntries : ∀ bc ∈ entries, bc.bucket ∈ allIssues.map (·.bucket) ∧
      bc.count = (allIssues.filter (fun t => t.bucket == bc.bucket)).length := by
    intro bc hbc
    rw [hentries] at hbc
    obtain ⟨b, hb, rfl⟩ := List.mem_map.mp hbc
    exact ⟨List.mem_dedup.mp hb, rfl⟩
  refine ⟨List.length_take_le 5 sorted, ?_, ?_, ?_⟩
  · exact List.Pairwise.sublist (List.take_sublist 5 sorted) hpw
  · intro bc hbc
    exact hmemEntries bc (hperm.mem_iff.mp (List.mem_of_mem_take hbc))
  · intro b hb hnot bc hbc
    have hbd : b ∈ (allIssues.map (·.bucket)).dedup := List.mem_dedup.mpr hb
    have hEb : (⟨b, (allIssues.filter (fun t => t.bucket == b)).length⟩ :
        BucketCount) ∈ entries := by
      rw [hentries]
      exact List.mem_map.mpr ⟨b, hbd, rfl⟩
    have hEs : (⟨b, (allIssues.filter (fun t => t.bucket == b)).length⟩ :
        BucketCount) ∈ sorted := hperm.mem_iff.mpr hEb
    rw [← List.take_append_drop 5 sorted] at hEs
    rcases List.mem_append.mp hEs with hIn | hIn
    · exact absurd (List.mem_map.mpr ⟨_, hIn, rfl⟩) hnot
    · have hsplit := (List.pairwise_append.mp
        (by rwa [List.take_append_drop 5 sorted])).2.2
      exact hsplit bc hbc _ hIn

/-- Phase two of `processIssues` splits the active list by mention: the
still-active issues are exactly those whose id was mentioned, the newly
resolved ones (marked with status "resolved" and the resolution instant) are
exactly the others, in order, and the count is theirs. -/
theorem resolveUnmentioned_eq (mentioned : List String) (now : Time) :
    ∀ l : List TrackedIssue,
      resolveUnmentioned mentioned now l =
        (l.filter (fun t => decide (t.issueID ∈ mentioned)),
         (l.filter (fun t => !decide (t.issueID ∈ mentioned))).map
           (markResolved now),
         (l.filter (fun t => !decide (t.issueID ∈ mentioned))).length)
  | [] => by simp [resolveUnmentioned]
  | t :: ts => by
    rw [resolveUnmentioned, resolveUnmentioned_eq mentioned now ts]
    by_cases h : t.issueID ∈ mentioned <;>
      simp [List.filter_cons, h]

/-- A matched update inside `processIssues` preserves the id multiset of the
active list and the list's length, and returns an id of the input list. -/
theorem updateFirstMatch_ids {is : Issue} {cid : String} {now : Time} :
    ∀ {act act' : List TrackedIssue} {mid : String},
      updateFirstMatch is cid now act = some (act', mid) →
      act'.map (·.issueID) = act.map (·.issueID) ∧
      act'.length = act.length ∧ mid ∈ act.map (·.issueID)
  | [], _, _, h => by simp [updateFirstMatch] at h
  | t :: ts, act', mid, h => by
    rw [updateFirstMatch] at h
    split at h
    · rcases Option.some.injEq .. ▸ h with ⟨rfl, rfl⟩
      refine ⟨?_, by simp, by simp⟩
      simp [updateExistingIssue]
    · revert h
      split
      · next ts' mid' heq =>
        intro h
        rcases Option.some.injEq .. ▸ h with ⟨rfl, rfl⟩
        obtain ⟨h1, h2, h3⟩ := updateFirstMatch_ids heq
        exact ⟨by simp [h1], by simp [h2], by simp [h3]⟩
      · intro h
        exact absurd h (by simp)

/-- Phase one of `processIssues` only extends the active list: the updated
list's ids are the prior ids followed by the ids of the newly created
issues. -/
theorem processIssuesLoop_ids_append (g cid : String) (now : Time) :
    ∀ (issues : List Issue) (act : List TrackedIssue) (m : List String),
      ∃ newIds,
        ((issues.foldl (processIssuesStep g cid now) (act, m)).1).map
            (·.issueID) =
          act.map (·.issueID) ++ newIds
  | [], act, m => ⟨[], by simp⟩
  | is :: rest, act, m => by
    rw [List.foldl_cons]
    rw [processIssuesStep]
    rcases hm : updateFirstMatch is cid now act with _ | ⟨act', mid⟩
    · simp only
      obtain ⟨newIds, hnew⟩ := processIssuesLoop_ids_append g cid now rest
        (act ++ [newTrackedIssue g cid act.length is now]) (m ++ [(newTrackedIssue g cid act.length is now).issueID])
      exact ⟨(newTrackedIssue g cid act.length is now).issueID :: newIds, by
        simp only [hnew, List.map_append, List.map_cons, List.map_nil]
        simp⟩
    · simp only
      obtain ⟨newIds, hnew⟩ := processIssuesLoop_ids_append g cid now rest
        act' (m ++ [mid])
      obtain ⟨h1, _, _⟩ := updateFirstMatch_ids hm
      exact ⟨newIds, by rw [hnew, h1]⟩

/-- Claim C7: in `processIssues`, resolutions happen only when the call's
resolution signal is set.  With the signal off, the active set keeps (at
least) every previously active issue id, the resolved list is unchanged and
the resolved count is 0.  With the signal on, exactly the active issues not
mentioned in this call (by the phase-one mention set) move to the resolved
list — marked "resolved" with the resolution instant — and are counted;
mentioned issues always stay active.  Consequently a resolution call that
reports no issues resolves every previously active issue. -/
theorem processIssues_resolution_policy (p : SellerProfile)
    (a : AnalysisResult) (now : Time) :
    let r1 := processIssuesLoop p.gluserID a.callID now a.issues p.activeIssues
    let r := processIssues p a now
    (a.intent.promptResolution = false →
      r.1.activeIssues = r1.1 ∧
      (∀ t ∈ p.activeIssues, t.issueID ∈ r.1.activeIssues.map (·.issueID)) ∧
      r.1.resolvedIssues = p.resolvedIssues ∧ r.2 = 0)
    ∧ (a.intent.promptResolution = true →
        r.1.activeIssues = r1.1.filter (fun t => decide (t.issueID ∈ r1.2)) ∧
        r.1.resolvedIssues = p.resolvedIssues ++
          (r1.1.filter (fun t => !decide (t.issueID ∈ r1.2))).map
            (markResolved now) ∧
        r.2 = (r1.1.filter (fun t => !decide (t.issueID ∈ r1.2))).length ∧
        (∀ t ∈ r1.1, t.issueID ∈ r1.2 → t ∈ r.1.activeIssues))
    ∧ (a.intent.promptResolution = true → a.issues = [] →
        r.1.activeIssues = [] ∧
        r.1.resolvedIssues = p.resolvedIssues ++
          p.activeIssues.map (markResolved now) ∧
        r.2 = p.activeIssues.length) := by
  have hids := processIssuesLoop_ids_append p.gluserID a.callID now a.issues
    p.activeIssues []
  refine ⟨?_, ?_, ?_⟩
  · intro hfalse
    rw [processIssues, if_neg (by simp [hfalse])]
    refine ⟨rfl, ?_, rfl, rfl⟩
    intro t ht
    obtain ⟨newIds, hnew⟩ := hids
    simp only [processIssuesLoop]
    rw [hnew]
    exact List.mem_append_left _ (List.mem_map.mpr ⟨t, ht, rfl⟩)
  · intro htrue
    by_cases hlen : 0 <
        (processIssuesLoop p.gluserID a.callID now a.issues p.activeIssues).1.length
    · rw [processIssues, if_pos ⟨htrue, hlen⟩,
        resolveUnmentioned_eq]
      refine ⟨rfl, rfl, rfl, ?_⟩
      intro t ht hmem
      exact List.mem_filter.mpr ⟨ht, by simpa using hmem⟩
    · have hnil :
          (processIssuesLoop p.gluserID a.callID now a.issues p.activeIssues).1
            = [] := by
        cases hh : (processIssuesLoop p.gluserID a.callID now a.issues
            p.activeIssues).1 with
        | nil => rfl
        | cons x xs => rw [hh] at hlen; simp at hlen
      rw [processIssues, if_neg (by rw [hnil] at hlen ⊢; simp at hlen ⊢)]
      rw [hnil]
      refine ⟨rfl, by simp, by simp, by simp [hnil]⟩
  · intro htrue hempty
    have hr1 : processIssuesLoop p.gluserID a.callID now a.issues
        p.activeIssues = (p.activeIssues, []) := by
      rw [hempty]; rfl
    by_cases hlen : 0 < p.activeIssues.length
    · rw [processIssues, hr1, if_pos ⟨htrue, hlen⟩, resolveUnmentioned_eq]
      refine ⟨by simp, by simp, by simp⟩
    · have hnil : p.activeIssues = [] := by
        cases hh : p.activeIssues with
        | nil => rfl
        | cons x xs => rw [hh] at hlen; simp at hlen
      rw [processIssues, hr1, if_neg (by simp [hnil])]
      simp [hnil]

/-- When no active issue carries the reported bucket, the matched-update
scan finds nothing. -/
theorem updateFirstMatch_none {is : Issue} {cid : String} {now : Time} :
    ∀ {act : List TrackedIssue}, (∀ t ∈ act, t.bucket ≠ is.bucket) →
      updateFirstMatch is cid now act = none
  | [], _ => rfl
  | t :: ts, h => by
    rw [updateFirstMatch]
    rw [if_neg (by simpa [isSameIssue] using h t (by simp))]
    rw [updateFirstMatch_none (fun t' ht' => h t' (by simp [ht']))]

/-- The scan updates the first matching active issue in place: with a
category-matching issue `T` behind a prefix of non-matching ones, the prefix
and suffix are kept and exactly `T` is updated. -/
theorem updateFirstMatch_first {is : Issue} {cid : String} {now : Time}
    {T : TrackedIssue} (hT : T.bucket = is.bucket) :
    ∀ (pre post : List TrackedIssue), (∀ t ∈ pre, t.bucket ≠ is.bucket) →
      updateFirstMatch is cid now (pre ++ T :: post) =
        some (pre ++ updateExistingIssue T is cid now :: post, T.issueID)
  | [], post, _ => by
    simp only [List.nil_append, updateFirstMatch]
    rw [if_pos (by simp [isSameIssue, hT])]
  | t :: pre, post, h => by
    rw [List.cons_append, updateFirstMatch,
      if_neg (by simpa [isSameIssue] using h t (by simp)),
      updateFirstMatch_first hT pre post (fun t' ht' => h t' (by simp [ht']))]
    rfl

/-- `T` is the first tracked issue of category `b` in the active list, and
the later tracked issues of that category are exactly `F`. -/
def firstTrackedOfBucket (b : String) (T : TrackedIssue)
    (F act : List TrackedIssue) : Prop :=
  ∃ pre post, act = pre ++ T :: post ∧ (∀ t ∈ pre, t.bucket ≠ b) ∧
    T.bucket = b ∧ post.filter (fun t => t.bucket == b) = F

/-- Under `firstTrackedOfBucket`, the category's view of the active list is
the tracked issue followed by the fixed tail. -/
theorem firstTrackedOfBucket_filter {b : String} {T : TrackedIssue}
    {F act : List TrackedIssue} (h : firstTrackedOfBucket b T F act) :
    act.filter (fun t => t.bucket == b) = T :: F := by
  obtain ⟨pre, post, rfl, hpre, hTb, hF⟩ := h
  rw [List.filter_append,
    List.filter_eq_nil_iff.mpr (fun t ht => by simpa using hpre t ht),
    List.filter_cons, if_pos (by simpa using hTb), hF]
  rfl

/-- Under `firstTrackedOfBucket`, the tracked issue is in the active list. -/
theorem firstTrackedOfBucket_mem {b : String} {T : TrackedIssue}
    {F act : List TrackedIssue} (h : firstTrackedOfBucket b T F act) :
    T ∈ act := by
  obtain ⟨pre, post, rfl, -, -, -⟩ := h
  exact List.mem_append_right _ (by simp)

/-- Prepending a non-category issue keeps the first-of-category shape. -/
theorem firstTrackedOfBucket_cons {b : String} {T t : TrackedIssue}
    {F l : List TrackedIssue} (h : firstTrackedOfBucket b T F l)
    (ht : t.bucket ≠ b) : firstTrackedOfBucket b T F (t :: l) := by
  obtain ⟨pre, post, rfl, hpre, hTb, hF⟩ := h
  refine ⟨t :: pre, post, rfl, ?_, hTb, hF⟩
  intro x hx
  rcases List.mem_cons.mp hx with rfl | hx'
  · exact ht
  · exact hpre x hx'

/-- Appending a non-category issue keeps the first-of-category shape. -/
theorem firstTrackedOfBucket_snoc {b : String} {T t : TrackedIssue}
    {F l : List TrackedIssue} (h : firstTrackedOfBucket b T F l)
    (ht : t.bucket ≠ b) : firstTrackedOfBucket b T F (l ++ [t]) := by
  obtain ⟨pre, post, rfl, hpre, hTb, hF⟩ := h
  refine ⟨pre, post ++ [t], by rw [List.append_assoc]; rfl, hpre, hTb, ?_⟩
  rw [List.filter_append, hF, List.filter_cons, if_neg (by simpa using ht),
    List.filter_nil, List.append_nil]

/-- Updating a match of a different category leaves the category's filtered
view unchanged and preserves the first-of-category shape. -/
theorem updateFirstMatch_other {is : Issue} {cid : String} {now : Time}
    {b : String} (hib : is.bucket ≠ b) :
    ∀ {act act' : List TrackedIssue} {mid : String},
      updateFirstMatch is cid now act = some (act', mid) →
      act'.filter (fun t => t.bucket == b) =
        act.filter (fun t => t.bucket == b)
      ∧ ∀ {T : TrackedIssue} {F : List TrackedIssue},
          firstTrackedOfBucket b T F act → firstTrackedOfBucket b T F act'
  | [], _, _, h => by simp [updateFirstMatch] at h
  | t :: ts, act', mid, h => by
    rw [updateFirstMatch] at h
    split at h
    · next hsame =>
      rcases Option.some.injEq .. ▸ h with ⟨rfl, rfl⟩
      have htb : t.bucket ≠ b := by
        have hts : t.bucket = is.bucket := by simpa [isSameIssue] using hsame
        rw [hts]; exact hib
      constructor
      · rw [List.filter_cons, List.filter_cons,
          if_neg (fun hcon => htb (by simpa using hcon)),
          if_neg (fun hcon => htb (by simpa using hcon))]
      · intro T F hF
        obtain ⟨pre, post, heq, hpre, hTb, hFF⟩ := hF
        cases pre with
        | nil =>
          simp only [List.nil_append] at heq
          obtain ⟨rfl, rfl⟩ := List.cons.injEq .. ▸ heq
          exact absurd hTb htb
        | cons q pre' =>
          simp only [List.cons_append] at heq
          obtain ⟨rfl, hts2⟩ := List.cons.injEq .. ▸ heq
          refine ⟨updateExistingIssue t is cid now :: pre', post,
            by rw [hts2, List.cons_append], ?_, hTb, hFF⟩
          intro x hx
          rcases List.mem_cons.mp hx with rfl | hx'
          · exact fun hcon => htb hcon
          · exact hpre x (by simp [hx'])
    · next hsame =>
      revert h
      split
      · next ts' mid' heq =>
        intro h
        rcases Option.some.injEq .. ▸ h with ⟨rfl, rfl⟩
        obtain ⟨ih1, ih2⟩ := updateFirstMatch_other hib heq
        constructor
        · rw [List.filter_cons, List.filter_cons, ih1]
        · intro T F hF
          obtain ⟨pre, post, heq2, hpre, hTb, hFF⟩ := hF
          cases pre with
          | nil =>
            simp only [List.nil_append] at heq2
            obtain ⟨rfl, rfl⟩ := List.cons.injEq .. ▸ heq2
            exact ⟨[], ts', rfl, by simp, hTb, by rw [ih1]; exact hFF⟩
          | cons q pre' =>
            simp only [List.cons_append] at heq2
            obtain ⟨rfl, hts2⟩ := List.cons.injEq .. ▸ heq2
            have hq : t.bucket ≠ b := hpre t (by simp)
            exact firstTrackedOfBucket_cons
              (ih2 ⟨pre', post, hts2, fun x hx => hpre x (by simp [hx]),
                hTb, hFF⟩) hq
      · intro h
        exact absurd h (by simp)

/-- The mention set built by phase one of `processIssues` only grows. -/
theorem processIssuesLoop_ment_ext (g cid : String) (now : Time) :
    ∀ (issues : List Issue) (act : List TrackedIssue) (m : List String),
      ∃ ext, (issues.foldl (processIssuesStep g cid now) (act, m)).2 = m ++ ext
  | [], act, m => ⟨[], by simp⟩
  | is :: rest, act, m => by
    rw [List.foldl_cons, processIssuesStep]
    rcases hm : updateFirstMatch is cid now act with _ | ⟨act', mid⟩
    · simp only
      obtain ⟨ext, hext⟩ := processIssuesLoop_ment_ext g cid now rest
        (act ++ [newTrackedIssue g cid act.length is now])
        (m ++ [(newTrackedIssue g cid act.length is now).issueID])
      exact ⟨(newTrackedIssue g cid act.length is now).issueID :: ext,
        by rw [hext]; simp⟩
    · simp only
      obtain ⟨ext, hext⟩ := processIssuesLoop_ment_ext g cid now rest act'
        (m ++ [mid])
      exact ⟨mid :: ext, by rw [hext]; simp⟩

/-- Folding one call's issues over an active list whose first tracked issue
of category `b` is `T`: every issue of category `b` matches `T` (and only
`T`), so `T` is bumped once per such issue — mention count up by their
number k, call id appended k times, identifier kept, recurrence re-derived —
while the category's later tracked issues are untouched and `T` is recorded
as mentioned whenever k ≥ 1. -/
theorem processIssuesLoop_bump (g cid : String) (now : Time) (b : String) :
    ∀ (issues : List Issue) (act : List TrackedIssue) (m : List String)
      (T : TrackedIssue) (F : List TrackedIssue),
      firstTrackedOfBucket b T F act →
      ∃ T', firstTrackedOfBucket b T' F
          ((issues.foldl (processIssuesStep g cid now) (act, m)).1)
        ∧ T'.mentionCount = T.mentionCount +
            (issues.filter (fun i => i.bucket == b)).length
        ∧ T'.callIDs = T.callIDs ++ List.replicate
            ((issues.filter (fun i => i.bucket == b)).length) cid
        ∧ T'.isRecurring =
            (if (issues.filter (fun i => i.bucket == b)).length = 0
             then T.isRecurring
             else decide (2 ≤ T.mentionCount +
               (issues.filter (fun i => i.bucket == b)).length))
        ∧ T'.issueID = T.issueID
        ∧ (0 < (issues.filter (fun i => i.bucket == b)).length →
            T.issueID ∈
              (issues.foldl (processIssuesStep g cid now) (act, m)).2)
  | [], act, m, T, F, hInv =>
    ⟨T, hInv, by simp, by simp, by simp, rfl, by simp⟩
  | is :: rest, act, m, T, F, hInv => by
    rw [List.foldl_cons]
    by_cases hib : is.bucket = b
    · obtain ⟨pre, post, rfl, hpre, hTb, hF⟩ := hInv
      have hstep : processIssuesStep g cid now (pre ++ T :: post, m) is =
          (pre ++ updateExistingIssue T is cid now :: post,
           m ++ [T.issueID]) := by
        rw [processIssuesStep,
          updateFirstMatch_first (by rw [hTb, hib]) pre post
            (fun t ht => by rw [hib]; exact hpre t ht)]
      rw [hstep]
      have hkc : ((is :: rest).filter (fun i => i.bucket == b)).length =
          (rest.filter (fun i => i.bucket == b)).length + 1 := by
        rw [List.filter_cons, if_pos (by simpa using hib)]
        rfl
      rw [hkc]
      have hInv1 : firstTrackedOfBucket b (updateExistingIssue T is cid now)
          F (pre ++ updateExistingIssue T is cid now :: post) :=
        ⟨pre, post, rfl, hpre, hTb, hF⟩
      obtain ⟨T', hInv', hmc, hcid, hrec, hid, -⟩ :=
        processIssuesLoop_bump g cid now b rest
          (pre ++ updateExistingIssue T is cid now :: post)
          (m ++ [T.issueID]) (updateExistingIssue T is cid now) F hInv1
      have hu1 : (updateExistingIssue T is cid now).mentionCount =
          T.mentionCount + 1 := rfl
      have hu2 : (updateExistingIssue T is cid now).callIDs =
          T.callIDs ++ [cid] := rfl
      have hu3 : (updateExistingIssue T is cid now).issueID = T.issueID := rfl
      refine ⟨T', hInv', ?_, ?_, ?_, ?_, ?_⟩
      · rw [hmc, hu1]; omega
      · rw [hcid, hu2, List.append_assoc, List.replicate_succ]
        rfl
      · rw [hrec]
        rcases Nat.eq_zero_or_pos
            ((rest.filter (fun i => i.bucket == b)).length) with hz | hpos
        · rw [hz, if_pos rfl, if_neg (by omega)]
          have hq : (updateExistingIssue T is cid now).isRecurring =
              decide (2 ≤ T.mentionCount + 1) := rfl
          rw [hq]
        · rw [if_neg (by omega), if_neg (by omega), hu1]
          have h2 : T.mentionCount + 1 +
              (rest.filter (fun i => i.bucket == b)).length =
              T.mentionCount +
                ((rest.filter (fun i => i.bucket == b)).length + 1) := by
            omega
          rw [h2]
      · rw [hid, hu3]
      · intro _
        obtain ⟨ext, hext⟩ := processIssuesLoop_ment_ext g cid now rest
          (pre ++ updateExistingIssue T is cid now :: post) (m ++ [T.issueID])
        rw [hext]
        simp
    · have hkc : ((is :: rest).filter (fun i => i.bucket == b)).length =
          (rest.filter (fun i => i.bucket == b)).length := by
        rw [List.filter_cons, if_neg (by simpa using hib)]
      rw [hkc, processIssuesStep]
      rcases hm : updateFirstMatch is cid now act with _ | ⟨act', mid⟩
      · simp only
        exact processIssuesLoop_bump g cid now b rest
          (act ++ [newTrackedIssue g cid act.length is now])
          (m ++ [(newTrackedIssue g cid act.length is now).issueID]) T F
          (firstTrackedOfBucket_snoc hInv hib)
      · simp only
        obtain ⟨-, hpres⟩ := updateFirstMatch_other hib hm
        exact processIssuesLoop_bump g cid now b rest act' (m ++ [mid]) T F
          (hpres hInv)

/-- Folding one call's issues over an active list with no tracked issue of
category `b`, when the call mentions that category k ≥ 1 times: the first
such issue creates the category's single tracked issue and the k−1 later
duplicates all match it, ending with mention count k, the call id recorded
k times, recurrence exactly when k ≥ 2, a fresh identifier of the seller's
id shape, and the issue recorded as mentioned. -/
theorem processIssuesLoop_fresh (g cid : String) (now : Time) (b : String) :
    ∀ (issues : List Issue) (act : List TrackedIssue) (m : List String),
      (∀ t ∈ act, t.bucket ≠ b) →
      0 < (issues.filter (fun i => i.bucket == b)).length →
      ∃ T', firstTrackedOfBucket b T' []
          ((issues.foldl (processIssuesStep g cid now) (act, m)).1)
        ∧ T'.mentionCount = (issues.filter (fun i => i.bucket == b)).length
        ∧ T'.callIDs = List.replicate
            ((issues.filter (fun i => i.bucket == b)).length) cid
        ∧ T'.isRecurring =
            decide (2 ≤ (issues.filter (fun i => i.bucket == b)).length)
        ∧ (∃ n, T'.issueID = issueIDString g cid n)
        ∧ T'.issueID ∈ (issues.foldl (processIssuesStep g cid now) (act, m)).2
  | [], _, _, _, hk => by simp at hk
  | is :: rest, act, m, hact, hk => by
    rw [List.foldl_cons]
    by_cases hib : is.bucket = b
    · have hnone : updateFirstMatch is cid now act = none :=
        updateFirstMatch_none (fun t ht => by rw [hib]; exact hact t ht)
      have hstep : processIssuesStep g cid now (act, m) is =
          (act ++ [newTrackedIssue g cid act.length is now],
           m ++ [(newTrackedIssue g cid act.length is now).issueID]) := by
        rw [processIssuesStep, hnone]
      rw [hstep]
      have hkc : ((is :: rest).filter (fun i => i.bucket == b)).length =
          (rest.filter (fun i => i.bucket == b)).length + 1 := by
        rw [List.filter_cons, if_pos (by simpa using hib)]
        rfl
      rw [hkc]
      have hInv0 : firstTrackedOfBucket b
          (newTrackedIssue g cid act.length is now) []
          (act ++ [newTrackedIssue g cid act.length is now]) :=
        ⟨act, [], rfl, hact, hib, rfl⟩
      obtain ⟨T', hInv, hmc, hcid, hrec, hid, -⟩ :=
        processIssuesLoop_bump g cid now b rest
          (act ++ [newTrackedIssue g cid act.length is now])
          (m ++ [(newTrackedIssue g cid act.length is now).issueID])
          (newTrackedIssue g cid act.length is now) [] hInv0
      have hu1 : (newTrackedIssue g cid act.length is now).mentionCount = 1 :=
        rfl
      have hu2 : (newTrackedIssue g cid act.length is now).callIDs = [cid] :=
        rfl
      refine ⟨T', hInv, ?_, ?_, ?_,
        ⟨act.length, by rw [hid]; rfl⟩, ?_⟩
      · rw [hmc, hu1]; omega
      · rw [hcid, hu2, List.replicate_succ]
        rfl
      · rw [hrec]
        rcases Nat.eq_zero_or_pos
            ((rest.filter (fun i => i.bucket == b)).length) with hz | hpos
        · rw [hz, if_pos rfl]
          have hq : (newTrackedIssue g cid act.length is now).isRecurring =
              false := rfl
          rw [hq]
          decide
        · rw [if_neg (by omega), hu1]
          have h2 : 1 + (rest.filter (fun i => i.bucket == b)).length =
              (rest.filter (fun i => i.bucket == b)).length + 1 := by omega
          rw [h2]
      · obtain ⟨ext, hext⟩ := processIssuesLoop_ment_ext g cid now rest
          (act ++ [newTrackedIssue g cid act.length is now])
          (m ++ [(newTrackedIssue g cid act.length is now).issueID])
        rw [hext, hid]
        simp
    · have hkc : ((is :: rest).filter (fun i => i.bucket == b)).length =
          (rest.filter (fun i => i.bucket == b)).length := by
        rw [List.filter_cons, if_neg (by simpa using hib)]
      rw [hkc] at hk ⊢
      rw [processIssuesStep]
      rcases hm : updateFirstMatch is cid now act with _ | ⟨act', mid⟩
      · simp only
        refine processIssuesLoop_fresh g cid now b rest
          (act ++ [newTrackedIssue g cid act.length is now])
          (m ++ [(newTrackedIssue g cid act.length is now).issueID]) ?_ hk
        intro t ht
        rcases List.mem_append.mp ht with h1 | h1
        · exact hact t h1
        · obtain rfl := List.mem_singleton.mp h1
          exact hib
      · simp only
        obtain ⟨hfilt, -⟩ := updateFirstMatch_other hib hm
        refine processIssuesLoop_fresh g cid now b rest act' (m ++ [mid])
          ?_ hk
        have hnil : act'.filter (fun t => t.bucket == b) = [] := by
          rw [hfilt]
          exact List.filter_eq_nil_iff.mpr
            (fun t ht' => by simpa using hact t ht')
        intro t ht hb2
        have hmem2 : t ∈ act'.filter (fun t => t.bucket == b) :=
          List.mem_filter.mpr ⟨ht, by simpa using hb2⟩
        rw [hnil] at hmem2
        simp at hmem2

/-- A phase-one active issue whose id was mentioned this call survives into
the final active list of `processIssues`. -/
theorem processIssues_mentioned_survives (p : SellerProfile)
    (a : AnalysisResult) (now : Time) {T : TrackedIssue}
    (hmem : T ∈ (processIssuesLoop p.gluserID a.callID now a.issues
      p.activeIssues).1)
    (hid : T.issueID ∈ (processIssuesLoop p.gluserID a.callID now a.issues
      p.activeIssues).2) :
    T ∈ (processIssues p a now).1.activeIssues := by
  rw [processIssues]
  split
  · dsimp only
    rw [resolveUnmentioned_eq]
    exact List.mem_filter.mpr ⟨hmem, by simpa using hid⟩
  · dsimp only
    exact hmem

/-- Claim C1, amended: in every call that reports several issues of the same
category `b`, no second tracked issue is ever created for that category, and
every duplicate after the first still counts.  Branch one (created): if the
profile has no active issue of category `b` and the call mentions `b`
(`k ≥ 1` times), the reconciled profile tracks exactly one issue of that
category, with mention count `k`, the call id recorded `k` times, recurrence
exactly when `k ≥ 2`, and a fresh id of the seller/call shape.  Branch two
(updated): if the profile already tracks an issue of category `b` (first such
issue `T0`, later ones `F`), the call's `k ≥ 1` mentions of `b` all land on
`T0`: after phase one the category's tracked issues are still `T0`'s update
followed by the unchanged `F`, and the updated issue — mention count raised
by `k`, the call id appended `k` times, recurrence recomputed — survives into
the reconciled profile's active list. -/
theorem processIssues_same_call_duplicates (p : SellerProfile)
    (a : AnalysisResult) (now : Time) (b : String) :
    ((∀ t ∈ p.activeIssues, t.bucket ≠ b) →
      0 < (a.issues.filter (fun i => i.bucket == b)).length →
      ∃ T, ((processIssues p a now).1.activeIssues.filter
            (fun t => t.bucket == b)) = [T]
        ∧ T.mentionCount = (a.issues.filter (fun i => i.bucket == b)).length
        ∧ T.callIDs = List.replicate
            ((a.issues.filter (fun i => i.bucket == b)).length) a.callID
        ∧ T.isRecurring =
            decide (2 ≤ (a.issues.filter (fun i => i.bucket == b)).length)
        ∧ (∃ n, T.issueID = issueIDString p.gluserID a.callID n))
    ∧ (∀ T0 F, firstTrackedOfBucket b T0 F p.activeIssues →
        0 < (a.issues.filter (fun i => i.bucket == b)).length →
        ∃ T', ((processIssuesLoop p.gluserID a.callID now a.issues
              p.activeIssues).1.filter (fun t => t.bucket == b)) = T' :: F
          ∧ T'.issueID = T0.issueID
          ∧ T'.mentionCount =
              T0.mentionCount + (a.issues.filter (fun i => i.bucket == b)).length
          ∧ T'.callIDs = T0.callIDs ++ List.replicate
              ((a.issues.filter (fun i => i.bucket == b)).length) a.callID
          ∧ T'.isRecurring = decide (2 ≤ T0.mentionCount +
              (a.issues.filter (fun i => i.bucket == b)).length)
          ∧ T' ∈ (processIssues p a now).1.activeIssues) := by
  constructor
  · intro hact hk
    obtain ⟨T, hInv, hmc, hcid, hrec, hid, hment⟩ :=
      processIssuesLoop_fresh p.gluserID a.callID now b a.issues
        p.activeIssues [] hact hk
    have hfilt : (processIssuesLoop p.gluserID a.callID now a.issues
        p.activeIssues).1.filter (fun t => t.bucket == b) = [T] :=
      firstTrackedOfBucket_filter hInv
    have hment' : T.issueID ∈ (processIssuesLoop p.gluserID a.callID now
        a.issues p.activeIssues).2 := hment
    refine ⟨T, ?_, hmc, hcid, hrec, hid⟩
    rw [processIssues]
    split
    · dsimp only
      rw [resolveUnmentioned_eq, List.filter_comm, hfilt]
      simp [hment']
    · dsimp only
      exact hfilt
  · intro T0 F hfirst hk
    obtain ⟨T', hInv, hmc, hcid, hrec, hid, hment⟩ :=
      processIssuesLoop_bump p.gluserID a.callID now b a.issues
        p.activeIssues [] T0 F hfirst
    have hfilt : (processIssuesLoop p.gluserID a.callID now a.issues
        p.activeIssues).1.filter (fun t => t.bucket == b) = T' :: F :=
      firstTrackedOfBucket_filter hInv
    have hmem : T' ∈ (processIssuesLoop p.gluserID a.callID now a.issues
        p.activeIssues).1 := firstTrackedOfBucket_mem hInv
    have hment' : T'.issueID ∈ (processIssuesLoop p.gluserID a.callID now
        a.issues p.activeIssues).2 := by rw [hid]; exact hment hk
    refine ⟨T', hfilt, hid, hmc, hcid, ?_,
      processIssues_mentioned_survives p a now hmem hment'⟩
    rw [hrec, if_neg (by omega)]

/-- A concrete duplicate-category call for exercising `processIssues`. -/
def c1Issue1 : Issue :=
  { problem := "Badge missing", bucket := "TrustSEAL / Verification",
    severity := "high", actionableSummary := "verify badge", keywords := [] }

/-- A second issue of the same category reported in the same call. -/
def c1Issue2 : Issue :=
  { problem := "Certificate not received", bucket := "TrustSEAL / Verification",
    severity := "medium", actionableSummary := "send certificate",
    keywords := [] }

/-- A call analysis reporting two issues of the same category. -/
def c1Analysis : AnalysisResult :=
  { callID := "c1", sellerID := "S1", timestamp := 0, transcriptEn := "",
    originalLang := "", issues := [c1Issue1, c1Issue2],
    intent := { sentiment := "Negative", satisfactionScore := 2,
                promptResolution := false, overallExperience := "Poor" },
    churn := { isLikelyToChurn := "high", renewalAtRisk := true,
               dissatisfactionLevel := "high", churnReason := "",
               renewalProbability := 1/4 },
    upsell := { hasOpportunity := false, score := 0,
                willingnessToInvest := "low", isGrowthOriented := false,
                interestedFeatures := [], upsellReason := "" },
    callSummary := "", agentPerformance := "Average",
    llmEscalationRequired := none, llmFollowUpNeeded := none,
    analyzedAt := 0 }

/-- The same call with only the first of the two duplicate issues. -/
def c1AnalysisFirst : AnalysisResult :=
  { c1Analysis with issues := [c1Issue1] }

/-- A fresh profile for the duplicate-category counterexample. -/
def c1Profile : SellerProfile := newSellerProfile "G" 0

/-- Counterexample to claim C1 as stated: a call reporting two issues of the
same category against an empty profile leaves the single tracked issue with
mention count 2, recurring flag set, and the call id recorded twice — not
the state the first issue alone would have produced (mention count 1, no
recurrence); the two resulting active-issue lists differ. -/
theorem processIssues_first_only_counterexample :
    ((processIssues c1Profile c1Analysis 0).1.activeIssues.map
      (fun t => (t.mentionCount, t.isRecurring, t.callIDs)))
        = [(2, true, ["c1", "c1"])]
    ∧ (processIssues c1Profile c1Analysis 0).1.activeIssues ≠
        (processIssues c1Profile c1AnalysisFirst 0).1.activeIssues := by
  decide

/-- Witness for the amended claim C1 at the concrete duplicate-category
call: the created branch at a fresh profile and a call reporting the
category twice. -/
theorem processIssues_same_call_duplicates_witness :
    ∃ T, ((processIssues c1Profile c1Analysis 0).1.activeIssues.filter
          (fun t => t.bucket == "TrustSEAL / Verification")) = [T]
      ∧ T.mentionCount = (c1Analysis.issues.filter
          (fun i => i.bucket == "TrustSEAL / Verification")).length
      ∧ T.callIDs = List.replicate
          ((c1Analysis.issues.filter
            (fun i => i.bucket == "TrustSEAL / Verification")).length)
          c1Analysis.callID
      ∧ T.isRecurring = decide (2 ≤ (c1Analysis.issues.filter
          (fun i => i.bucket == "TrustSEAL / Verification")).length)
      ∧ (∃ n, T.issueID =
          issueIDString c1Profile.gluserID c1Analysis.callID n) :=
  (processIssues_same_call_duplicates c1Profile c1Analysis 0
    "TrustSEAL / Verification").1 (by decide) (by decide)

/-- A concrete single-category issue for the top-buckets counterexample. -/
def c8Issue : Issue :=
  { problem := "Leads stopped", bucket := "Payments", severity := "high",
    actionableSummary := "check account", keywords := [] }

/-- A call analysis reporting the one issue, with no resolution signal. -/
def c8Analysis (cid : String) : AnalysisResult :=
  { callID := cid, sellerID := "S1", timestamp := 0, transcriptEn := "",
    originalLang := "", issues := [c8Issue],
    intent := { sentiment := "Negative", satisfactionScore := 3,
                promptResolution := false, overallExperience := "Poor" },
    churn := { isLikelyToChurn := "low", renewalAtRisk := false,
               dissatisfactionLevel := "low", churnReason := "",
               renewalProbability := 1/2 },
    upsell := { hasOpportunity := false, score := 0,
                willingnessToInvest := "low", isGrowthOriented := false,
                interestedFeatures := [], upsellReason := "" },
    callSummary := "", agentPerformance := "Average",
    llmEscalationRequired := none, llmFollowUpNeeded := none,
    analyzedAt := 0 }

/-- A profile reconciled twice with the same-category issue: the tracked
issue accumulates mention count 2 while remaining a single issue. -/
def c8Profile : SellerProfile :=
  updateSellerProfile
    (some (updateSellerProfile none "G" (c8Analysis "c1") none 1))
    "G" (c8Analysis "c2") none 2

/-- Counterexample to claim C8 as stated: after two reconciliations that
mention the same category, `top_buckets` reports count 1 for that category
(the number of tracked issues), while the sum of `mention_count` over the
tracked issues of the category is 2. -/
theorem updateIssueStats_topBuckets_counterexample :
    (c8Profile.issueStats.topBuckets.map (fun bc => (bc.bucket, bc.count)))
      = [("Payments", 1)]
    ∧ (((c8Profile.activeIssues ++ c8Profile.resolvedIssues).filter
        (fun t => t.bucket == "Payments")).map (·.mentionCount)).sum = 2 := by
  decide

/-- Witness for the amended claim C8 at the twice-reconciled profile. -/
theorem updateIssueStats_topBuckets_witness :
    let allIssues := c8Profile.activeIssues ++ c8Profile.resolvedIssues
    let tb := (updateIssueStats c8Profile).issueStats.topBuckets
    tb.length ≤ 5
    ∧ tb.Pairwise (fun x y => y.count ≤ x.count)
    ∧ (∀ bc ∈ tb, bc.bucket ∈ allIssues.map (·.bucket) ∧
        bc.count = (allIssues.filter (fun t => t.bucket == bc.bucket)).length)
    ∧ (∀ b ∈ allIssues.map (·.bucket), b ∉ tb.map (·.bucket) →
        ∀ bc ∈ tb,
          (allIssues.filter (fun t => t.bucket == b)).length ≤ bc.count) :=
  updateIssueStats_topBuckets c8Profile

/-- Numeric value of a decimal digit character. -/
def charVal (c : Char) : Nat := c.toNat - 48

/-- Horner evaluation of a most-significant-first decimal digit string. -/
def digitsVal (l : List Char) : Nat :=
  l.foldl (fun acc c => acc * 10 + charVal c) 0

/-- The digit printer never emits a dash. -/
theorem digitChar_ne_dash (k : Nat) : Nat.digitChar k ≠ '-' := by
  by_cases h : k < 16
  · interval_cases k <;> decide
  · have h2 : Nat.digitChar k = '*' := by
      unfold Nat.digitChar
      repeat rw [if_neg (by omega)]
    rw [h2]; decide

/-- The digit printer round-trips on digit values. -/
theorem charVal_digitChar (k : Nat) (h : k < 10) :
    charVal (Nat.digitChar k) = k := by
  interval_cases k <;> rfl

/-- The accumulator of `Nat.toDigitsCore` is a plain suffix. -/
theorem toDigitsCore_acc (f : Nat) :
    ∀ (n : Nat) (ds : List Char),
      Nat.toDigitsCore 10 f n ds = Nat.toDigitsCore 10 f n [] ++ ds := by
  induction f with
  | zero => intro n ds; rfl
  | succ f ih =>
    intro n ds
    rw [Nat.toDigitsCore, Nat.toDigitsCore]
    by_cases h : n / 10 = 0
    · simp only [h, if_pos]
      rfl
    · rw [if_neg h, if_neg h, ih (n / 10) (Nat.digitChar (n % 10) :: ds),
        ih (n / 10) [Nat.digitChar (n % 10)]]
      simp

/-- Every character `Nat.toDigitsCore` emits is a digit, never a dash. -/
theorem toDigitsCore_ne_dash (f : Nat) :
    ∀ (n : Nat) (ds : List Char), (∀ c ∈ ds, c ≠ '-') →
      ∀ c ∈ Nat.toDigitsCore 10 f n ds, c ≠ '-' := by
  induction f with
  | zero => intro n ds h; exact h
  | succ f ih =>
    intro n ds h c hc
    rw [Nat.toDigitsCore] at hc
    by_cases h0 : n / 10 = 0
    · rw [if_pos h0] at hc
      rcases List.mem_cons.mp hc with rfl | hc'
      · exact digitChar_ne_dash _
      · exact h c hc'
    · rw [if_neg h0] at hc
      refine ih (n / 10) (Nat.digitChar (n % 10) :: ds) ?_ c hc
      intro c' hc'
      rcases List.mem_cons.mp hc' with rfl | hc''
      · exact digitChar_ne_dash _
      · exact h c' hc''

/-- Horner evaluation over a trailing digit. -/
theorem digitsVal_append_singleton (xs : List Char) (c : Char) :
    digitsVal (xs ++ [c]) = digitsVal xs * 10 + charVal c := by
  simp [digitsVal, List.foldl_append]

/-- With sufficient fuel, `Nat.toDigitsCore` prints the decimal expansion:
Horner evaluation recovers the number. -/
theorem digitsVal_toDigitsCore (f : Nat) :
    ∀ n : Nat, n < f → digitsVal (Nat.toDigitsCore 10 f n []) = n := by
  induction f with
  | zero => intro n h; omega
  | succ f ih =>
    intro n h
    rw [Nat.toDigitsCore]
    by_cases h0 : n / 10 = 0
    · rw [if_pos h0]
      have hn : n < 10 := by omega
      have : n % 10 = n := Nat.mod_eq_of_lt hn
      simp [digitsVal, this, charVal_digitChar n hn]
    · rw [if_neg h0, toDigitsCore_acc, digitsVal_append_singleton,
        charVal_digitChar (n % 10) (Nat.mod_lt n (by norm_num)),
        ih (n / 10) (by omega)]
      omega

/-- Splitting a list at the first failing element of a prefix that wholly
satisfies the predicate. -/
theorem takeWhile_dropWhile_split (p : Char → Bool) :
    ∀ (xs : List Char) (y : Char) (ys : List Char),
      (∀ x ∈ xs, p x = true) → p y = false →
      (xs ++ y :: ys).takeWhile p = xs ∧ (xs ++ y :: ys).dropWhile p = y :: ys
  | [], y, ys, _, hy => by
    simp [List.takeWhile_cons, List.dropWhile_cons, hy]
  | x :: xs, y, ys, hxs, hy => by
    have hx : p x = true := hxs x (by simp)
    obtain ⟨h1, h2⟩ := takeWhile_dropWhile_split p xs y ys
      (fun x' hx' => hxs x' (by simp [hx'])) hy
    simp [List.takeWhile_cons, List.dropWhile_cons, hx, h1, h2]

/-- A dash-separated pair with a dash-free tail is uniquely decomposable. -/
theorem append_dash_inj {cl1 cl2 dl1 dl2 : List Char}
    (hD1 : ∀ x ∈ dl1, x ≠ '-') (hD2 : ∀ x ∈ dl2, x ≠ '-')
    (h : cl1 ++ '-' :: dl1 = cl2 ++ '-' :: dl2) : cl1 = cl2 ∧ dl1 = dl2 := by
  have hrev := congrArg List.reverse h
  rw [List.reverse_append, List.reverse_cons, List.reverse_append,
    List.reverse_cons, List.append_assoc, List.append_assoc,
    List.singleton_append, List.singleton_append] at hrev
  have hp : ∀ (dl : List Char), (∀ x ∈ dl, x ≠ '-') →
      ∀ x ∈ dl.reverse, (fun c => !(c == '-')) x = true := by
    intro dl hdl x hx
    simpa using hdl x (List.mem_reverse.mp hx)
  have hpd : (fun c => !(c == '-')) '-' = false := by simp
  have hsplit1 := takeWhile_dropWhile_split (fun c => !(c == '-'))
    dl1.reverse '-' cl1.reverse (hp dl1 hD1) hpd
  have hsplit2 := takeWhile_dropWhile_split (fun c => !(c == '-'))
    dl2.reverse '-' cl2.reverse (hp dl2 hD2) hpd
  have htake : dl1.reverse = dl2.reverse := by
    rw [← hsplit1.1, ← hsplit2.1, hrev]
  have hdrop : ('-' :: cl1.reverse : List Char) = '-' :: cl2.reverse := by
    rw [← hsplit1.2, ← hsplit2.2, hrev]
  constructor
  · exact List.reverse_injective (List.cons.injEq .. ▸ hdrop).2
  · exact List.reverse_injective htake

/-- The issue-identifier string determines the creating call id and the
creation index: for one seller, two issue ids agree only if they were formed
from the same call id and the same active-list length. -/
theorem issueIDString_inj {g c1 c2 : String} {n1 n2 : Nat}
    (h : issueIDString g c1 n1 = issueIDString g c2 n2) :
    c1 = c2 ∧ n1 = n2 := by
  have hd := congrArg String.data h
  simp only [issueIDString, String.data_append, List.append_assoc] at hd
  have hrepr : ∀ n : Nat, (Nat.repr n).data = Nat.toDigits 10 n := fun _ => rfl
  rw [hrepr n1, hrepr n2] at hd
  have hcancel := List.append_cancel_left hd
  have hcancel2 := List.append_cancel_left hcancel
  have hnd1 : ∀ x ∈ Nat.toDigits 10 n1, x ≠ '-' :=
    fun x hx => toDigitsCore_ne_dash (n1 + 1) n1 [] (by simp) x hx
  have hnd2 : ∀ x ∈ Nat.toDigits 10 n2, x ≠ '-' :=
    fun x hx => toDigitsCore_ne_dash (n2 + 1) n2 [] (by simp) x hx
  have hsplit : c1.data ++ '-' :: Nat.toDigits 10 n1 =
      c2.data ++ '-' :: Nat.toDigits 10 n2 := by
    simpa [List.append_assoc] using hcancel2
  obtain ⟨hc, hn⟩ := append_dash_inj hnd1 hnd2 hsplit
  refine ⟨?_, ?_⟩
  · cases c1; cases c2; exact congrArg String.mk hc
  · have v1 := digitsVal_toDigitsCore (n1 + 1) n1 (by omega)
    have v2 := digitsVal_toDigitsCore (n2 + 1) n2 (by omega)
    rw [← v1, ← v2]
    show digitsVal (Nat.toDigits 10 n1) = digitsVal (Nat.toDigits 10 n2)
    rw [hn]

/-- The issue identifiers of a tracked-issue list. -/
def trackedIDs (l : List TrackedIssue) : List String :=
  l.map (·.issueID)

/-- Identifier lists distribute over appending. -/
theorem trackedIDs_append (l1 l2 : List TrackedIssue) :
    trackedIDs (l1 ++ l2) = trackedIDs l1 ++ trackedIDs l2 := by
  simp [trackedIDs]

/-- Phase one of `processIssues` keeps the combined active-and-resolved id
list duplicate-free, and every id present is of the seller's id shape,
formed either from an already-seen call or from the current call with an
index below the current active-list length. -/
theorem processIssuesLoop_inv (g cid : String) (now : Time)
    (seen R : List String) (hfresh : cid ∉ seen) :
    ∀ (issues : List Issue) (act : List TrackedIssue) (m : List String),
      (trackedIDs act ++ R).Nodup →
      (∀ id ∈ trackedIDs act ++ R, ∃ c n, id = issueIDString g c n ∧
        (c ∈ seen ∨ (c = cid ∧ n < act.length))) →
      (trackedIDs (issues.foldl (processIssuesStep g cid now) (act, m)).1
          ++ R).Nodup ∧
      (∀ id ∈ trackedIDs
          (issues.foldl (processIssuesStep g cid now) (act, m)).1 ++ R,
        ∃ c n, id = issueIDString g c n ∧
          (c ∈ seen ∨ (c = cid ∧ n <
            (issues.foldl (processIssuesStep g cid now) (act, m)).1.length)))
  | [], act, m, hnd, hform => ⟨hnd, by simpa using hform⟩
  | is :: rest, act, m, hnd, hform => by
    rw [List.foldl_cons, processIssuesStep]
    rcases hm : updateFirstMatch is cid now act with _ | ⟨act', mid⟩
    · simp only
      set t := newTrackedIssue g cid act.length is now with ht
      have htid : t.issueID = issueIDString g cid act.length := rfl
      have hfreshID : t.issueID ∉ trackedIDs act ++ R := by
        intro hmem
        obtain ⟨c, n, heq, hcase⟩ := hform _ hmem
        obtain ⟨hc, hn⟩ := issueIDString_inj (htid ▸ heq.symm)
        rcases hcase with hseen | ⟨hcur, hlt⟩
        · exact hfresh (hc ▸ hseen)
        · omega
      have hperm : List.Perm (trackedIDs (act ++ [t]) ++ R)
          (t.issueID :: (trackedIDs act ++ R)) := by
        have : trackedIDs (act ++ [t]) ++ R =
            trackedIDs act ++ t.issueID :: R := by
          simp [trackedIDs]
        rw [this]
        exact List.perm_middle
      have hnd' : (trackedIDs (act ++ [t]) ++ R).Nodup :=
        hperm.nodup_iff.mpr (List.nodup_cons.mpr ⟨hfreshID, hnd⟩)
      have hform' : ∀ id ∈ trackedIDs (act ++ [t]) ++ R,
          ∃ c n, id = issueIDString g c n ∧
            (c ∈ seen ∨ (c = cid ∧ n < (act ++ [t]).length)) := by
        intro id hmem
        rcases List.mem_cons.mp (hperm.mem_iff.mp hmem) with hcons | hold
        · exact ⟨cid, act.length, by rw [hcons, htid], Or.inr
            ⟨rfl, by simp⟩⟩
        · obtain ⟨c, n, heq, hcase⟩ := hform id hold
          refine ⟨c, n, heq, ?_⟩
          rcases hcase with hseen | ⟨hcur, hlt⟩
          · exact Or.inl hseen
          · exact Or.inr ⟨hcur, by simp; omega⟩
      exact processIssuesLoop_inv g cid now seen R hfresh rest (act ++ [t])
        (m ++ [t.issueID]) hnd' hform'
    · simp only
      obtain ⟨hids, hlen, _⟩ := updateFirstMatch_ids hm
      have hids' : trackedIDs act' = trackedIDs act := hids
      have hnd' : (trackedIDs act' ++ R).Nodup := by rwa [hids']
      have hform' : ∀ id ∈ trackedIDs act' ++ R,
          ∃ c n, id = issueIDString g c n ∧
            (c ∈ seen ∨ (c = cid ∧ n < act'.length)) := by
        rw [hids', hlen]
        exact hform
      exact processIssuesLoop_inv g cid now seen R hfresh rest act'
        (m ++ [mid]) hnd' hform'

/-- `processIssues` keeps the combined active-and-resolved id list
duplicate-free, and every id present comes from a seen call or from the
current call. -/
theorem processIssues_id_inv (p : SellerProfile) (a : AnalysisResult)
    (now : Time) (seen : List String)
    (hfresh : a.callID ∉ seen)
    (hnd : (trackedIDs p.activeIssues ++ trackedIDs p.resolvedIssues).Nodup)
    (hform : ∀ id ∈ trackedIDs p.activeIssues ++ trackedIDs p.resolvedIssues,
      ∃ c n, id = issueIDString p.gluserID c n ∧ c ∈ seen) :
    (trackedIDs (processIssues p a now).1.activeIssues ++
      trackedIDs (processIssues p a now).1.resolvedIssues).Nodup ∧
    (∀ id ∈ trackedIDs (processIssues p a now).1.activeIssues ++
        trackedIDs (processIssues p a now).1.resolvedIssues,
      ∃ c n, id = issueIDString p.gluserID c n ∧ c ∈ seen ++ [a.callID]) := by
  have hform0 : ∀ id ∈ trackedIDs p.activeIssues ++
      trackedIDs p.resolvedIssues,
      ∃ c n, id = issueIDString p.gluserID c n ∧
        (c ∈ seen ∨ (c = a.callID ∧ n < p.activeIssues.length)) := by
    intro id hmem
    obtain ⟨c, n, heq, hc⟩ := hform id hmem
    exact ⟨c, n, heq, Or.inl hc⟩
  obtain ⟨hnd1, hform1⟩ := processIssuesLoop_inv p.gluserID a.callID now seen
    (trackedIDs p.resolvedIssues) hfresh a.issues p.activeIssues [] hnd hform0
  have hweak : ∀ {l : List String},
      (∀ id ∈ l, ∃ c n, id = issueIDString p.gluserID c n ∧
        (c ∈ seen ∨ (c = a.callID ∧ n <
          (a.issues.foldl (processIssuesStep p.gluserID a.callID now)
            (p.activeIssues, [])).1.length))) →
      ∀ id ∈ l, ∃ c n, id = issueIDString p.gluserID c n ∧
        c ∈ seen ++ [a.callID] := by
    intro l hl id hmem
    obtain ⟨c, n, heq, hc⟩ := hl id hmem
    refine ⟨c, n, heq, ?_⟩
    rcases hc with hseen | ⟨rfl, _⟩
    · exact List.mem_append_left _ hseen
    · exact List.mem_append_right _ (by simp)
  rw [processIssues]
  split
  · rw [resolveUnmentioned_eq]
    dsimp only
    set act1 := (processIssuesLoop p.gluserID a.callID now a.issues
      p.activeIssues).1 with hact1
    set M := (processIssuesLoop p.gluserID a.callID now a.issues
      p.activeIssues).2 with hM
    have hpermFilter : List.Perm
        (trackedIDs (act1.filter (fun t => decide (t.issueID ∈ M))) ++
          trackedIDs (act1.filter (fun t => !decide (t.issueID ∈ M))))
        (trackedIDs act1) := by
      have := List.filter_append_perm
        (fun t => decide (t.issueID ∈ M)) act1
      simpa [trackedIDs, List.map_append] using this.map (·.issueID)
    have hmark : trackedIDs ((act1.filter
        (fun t => !decide (t.issueID ∈ M))).map (markResolved now)) =
        trackedIDs (act1.filter (fun t => !decide (t.issueID ∈ M))) := by
      simp [trackedIDs, markResolved, Function.comp_def]
    have hperm2 : List.Perm
        (trackedIDs (act1.filter (fun t => decide (t.issueID ∈ M))) ++
          (trackedIDs p.resolvedIssues ++
            trackedIDs ((act1.filter
              (fun t => !decide (t.issueID ∈ M))).map (markResolved now))))
        (trackedIDs act1 ++ trackedIDs p.resolvedIssues) := by
      rw [hmark]
      have p1 : List.Perm
          (trackedIDs (act1.filter (fun t => decide (t.issueID ∈ M))) ++
            (trackedIDs p.resolvedIssues ++
              trackedIDs (act1.filter (fun t => !decide (t.issueID ∈ M)))))
          (trackedIDs (act1.filter (fun t => decide (t.issueID ∈ M))) ++
            (trackedIDs (act1.filter (fun t => !decide (t.issueID ∈ M))) ++
              trackedIDs p.resolvedIssues)) :=
        List.Perm.append_left _ List.perm_append_comm
      have p3 : List.Perm
          ((trackedIDs (act1.filter (fun t => decide (t.issueID ∈ M))) ++
            trackedIDs (act1.filter (fun t => !decide (t.issueID ∈ M)))) ++
              trackedIDs p.resolvedIssues)
          (trackedIDs act1 ++ trackedIDs p.resolvedIssues) :=
        List.Perm.append_right _ hpermFilter
      exact p1.trans ((List.append_assoc _ _ _) ▸ p3)
    constructor
    · rw [trackedIDs_append]
      exact hperm2.nodup_iff.mpr hnd1
    · intro id hmem
      rw [trackedIDs_append] at hmem
      exact hweak hform1 id (hperm2.mem_iff.mp hmem)
  · dsimp only
    exact ⟨hnd1, hweak hform1⟩

/-- Adjusting the head of a list keeps its length. -/
theorem modifyHead_length {α : Type} (f : α → α) (l : List α) :
    (l.modifyHead f).length = l.length := by
  cases l <;> simp

/-- The inductive invariant carried across reconciliations of one seller's
profile: the stored seller id matches, the combined active-and-resolved
issue-id list is duplicate-free, every issue id was formed from an already
seen call, the call counter equals the history length, and the metadata
timestamps are ordered and bounded by the last reconciliation instant. -/
def ProfileInv (g : String) (seen : List String) (t : Time)
    (p : SellerProfile) : Prop :=
  p.gluserID = g
  ∧ (trackedIDs p.activeIssues ++ trackedIDs p.resolvedIssues).Nodup
  ∧ (∀ id ∈ trackedIDs p.activeIssues ++ trackedIDs p.resolvedIssues,
      ∃ c n, id = issueIDString g c n ∧ c ∈ seen)
  ∧ p.totalCalls = p.callHistory.length
  ∧ p.createdAt ≤ p.updatedAt
  ∧ p.updatedAt ≤ t

/-- `applyTranscript` only touches identity metadata. -/
theorem applyTranscript_fields (p : SellerProfile)
    (ht : Option HackathonTranscript) :
    (applyTranscript p ht).activeIssues = p.activeIssues
    ∧ (applyTranscript p ht).resolvedIssues = p.resolvedIssues
    ∧ (applyTranscript p ht).gluserID = p.gluserID
    ∧ (applyTranscript p ht).totalCalls = p.totalCalls
    ∧ (applyTranscript p ht).callHistory = p.callHistory
    ∧ (applyTranscript p ht).createdAt = p.createdAt := by
  cases ht <;> exact ⟨rfl, rfl, rfl, rfl, rfl, rfl⟩

/-- `processIssues` only touches the issue lists. -/
theorem processIssues_fields (p : SellerProfile) (a : AnalysisResult)
    (now : Time) :
    (processIssues p a now).1.callHistory = p.callHistory
    ∧ (processIssues p a now).1.totalCalls = p.totalCalls
    ∧ (processIssues p a now).1.createdAt = p.createdAt
    ∧ (processIssues p a now).1.gluserID = p.gluserID := by
  rw [processIssues]
  split <;> exact ⟨rfl, rfl, rfl, rfl⟩

/-- The observable fields of one full reconciliation, reduced to the
`processIssues` output: the trailing trend/status/statistics passes leave
the issue lists, counters and creation time unchanged, and the save stamps
the update time. -/
theorem updateSellerProfile_fields (old : Option SellerProfile) (g : String)
    (a : AnalysisResult) (ht : Option HackathonTranscript) (now : Time) :
    let p0 := old.getD (newSellerProfile g now)
    let p2 : SellerProfile := { applyTranscript p0 ht with
      callHistory := mkCallSummary a ht ::
        (applyTranscript p0 ht).callHistory
      totalCalls := (applyTranscript p0 ht).totalCalls + 1
      lastCallAt := a.timestamp }
    let r := processIssues p2 a now
    (updateSellerProfile old g a ht now).activeIssues = r.1.activeIssues
    ∧ (updateSellerProfile old g a ht now).resolvedIssues = r.1.resolvedIssues
    ∧ (updateSellerProfile old g a ht now).gluserID = r.1.gluserID
    ∧ (updateSellerProfile old g a ht now).totalCalls = r.1.totalCalls
    ∧ (updateSellerProfile old g a ht now).callHistory.length =
        r.1.callHistory.length
    ∧ (updateSellerProfile old g a ht now).createdAt = r.1.createdAt
    ∧ (updateSellerProfile old g a ht now).updatedAt = now := by
  dsimp only [updateSellerProfile, updateTrends, calculateCurrentStatus,
    updateIssueStats]
  exact ⟨rfl, rfl, rfl, rfl, modifyHead_length _ _, rfl, rfl⟩

/-- One reconciliation preserves the profile invariant, recording the new
call as seen and advancing the time bound. -/
theorem updateSellerProfile_inv (g : String) (seen : List String) (t : Time)
    (old : Option SellerProfile) (a : AnalysisResult)
    (ht : Option HackathonTranscript) (now : Time)
    (hold : ∀ q, old = some q → ProfileInv g seen t q)
    (hfresh : a.callID ∉ seen)
    (hle : t ≤ now) :
    ProfileInv g (seen ++ [a.callID]) now
      (updateSellerProfile old g a ht now) := by
  have hbase : (old.getD (newSellerProfile g now)).gluserID = g
      ∧ (trackedIDs (old.getD (newSellerProfile g now)).activeIssues ++
          trackedIDs (old.getD (newSellerProfile g now)).resolvedIssues).Nodup
      ∧ (∀ id ∈ trackedIDs (old.getD (newSellerProfile g now)).activeIssues ++
          trackedIDs (old.getD (newSellerProfile g now)).resolvedIssues,
          ∃ c n, id = issueIDString g c n ∧ c ∈ seen)
      ∧ (old.getD (newSellerProfile g now)).totalCalls =
          (old.getD (newSellerProfile g now)).callHistory.length
      ∧ (old.getD (newSellerProfile g now)).createdAt ≤ now := by
    cases old with
    | none =>
      refine ⟨rfl, by simp [trackedIDs, newSellerProfile], ?_, rfl, le_refl _⟩
      intro id hid
      simp [trackedIDs, newSellerProfile] at hid
    | some q =>
      obtain ⟨h1, h2, h3, h4, h5, h6⟩ := hold q rfl
      exact ⟨h1, h2, h3, h4, le_trans (le_trans h5 h6) hle⟩
  obtain ⟨hg0, hnd0, hform0, htc0, hca0⟩ := hbase
  obtain ⟨hAct, hRes, hG, hTC, hCH, hCA, hUA⟩ :=
    updateSellerProfile_fields old g a ht now
  set p0 := old.getD (newSellerProfile g now) with hp0
  set p2 : SellerProfile := { applyTranscript p0 ht with
    callHistory := mkCallSummary a ht :: (applyTranscript p0 ht).callHistory
    totalCalls := (applyTranscript p0 ht).totalCalls + 1
    lastCallAt := a.timestamp } with hp2
  obtain ⟨hta, htr, htg, htt, hth, htc⟩ := applyTranscript_fields p0 ht
  have hp2g : p2.gluserID = g := by rw [hp2]; show (applyTranscript p0 ht).gluserID = g; rw [htg, hg0]
  have hp2act : p2.activeIssues = p0.activeIssues := hta
  have hp2res : p2.resolvedIssues = p0.resolvedIssues := htr
  have hp2nd : (trackedIDs p2.activeIssues ++
      trackedIDs p2.resolvedIssues).Nodup := by
    rw [hp2act, hp2res]; exact hnd0
  have hp2form : ∀ id ∈ trackedIDs p2.activeIssues ++
      trackedIDs p2.resolvedIssues,
      ∃ c n, id = issueIDString p2.gluserID c n ∧ c ∈ seen := by
    rw [hp2act, hp2res, hp2g]; exact hform0
  obtain ⟨hndR, hformR⟩ := processIssues_id_inv p2 a now seen hfresh hp2nd
    hp2form
  obtain ⟨hpf1, hpf2, hpf3, hpf4⟩ := processIssues_fields p2 a now
  refine ⟨?_, ?_, ?_, ?_, ?_, le_refl now⟩
  · rw [hG, hpf4, hp2g]
  · rw [hAct, hRes]; exact hndR
  · intro id hid
    rw [hAct, hRes] at hid
    obtain ⟨c, n, heq, hc⟩ := hformR id hid
    exact ⟨c, n, by rwa [hp2g] at heq, hc⟩
  · rw [hTC, hCH, hpf1, hpf2]
    show (applyTranscript p0 ht).totalCalls + 1 =
      (mkCallSummary a ht :: (applyTranscript p0 ht).callHistory).length
    rw [htt, hth, List.length_cons, htc0]
  · rw [hCA, hUA, hpf3]
    show p2.createdAt ≤ now
    have : p2.createdAt = p0.createdAt := htc
    rw [this]
    exact hca0

/-- Folding a sequence of reconciliations preserves the profile invariant,
for pairwise-fresh call ids and nondecreasing reconciliation instants. -/
theorem runSellerProfile_inv (g : String) :
    ∀ (steps : List ReconcileStep) (acc : Option SellerProfile)
      (seen : List String) (t : Time),
      (∀ q, acc = some q → ProfileInv g seen t q) →
      (seen ++ steps.map (·.analysis.callID)).Nodup →
      List.Chain' (· ≤ ·) (t :: steps.map (·.now)) →
      ∀ p, runSellerProfile g acc steps = some p →
        ∃ u, ProfileInv g (seen ++ steps.map (·.analysis.callID)) u p
  | [], acc, seen, t, hacc, _, _, p, hrun =>
    ⟨t, by simpa using hacc p (by simpa [runSellerProfile] using hrun)⟩
  | s :: rest, acc, seen, t, hacc, hnd, hch, p, hrun => by
    have hfresh : s.analysis.callID ∉ seen := by
      intro hmem
      have hdisj := (List.nodup_append.mp hnd).2.2
      exact hdisj hmem (by simp)
    have hle : t ≤ s.now := (List.chain'_cons.mp hch).1
    have hinv' := updateSellerProfile_inv g seen t acc s.analysis s.ht s.now
      hacc hfresh hle
    have hrun' : runSellerProfile g
        (some (updateSellerProfile acc g s.analysis s.ht s.now)) rest =
        some p := hrun
    have hnd' : ((seen ++ [s.analysis.callID]) ++
        rest.map (·.analysis.callID)).Nodup := by
      rw [List.append_assoc]
      simpa using hnd
    have hch' : List.Chain' (· ≤ ·) (s.now :: rest.map (·.now)) :=
      (List.chain'_cons.mp hch).2
    obtain ⟨u, hu⟩ := runSellerProfile_inv g rest
      (some (updateSellerProfile acc g s.analysis s.ht s.now))
      (seen ++ [s.analysis.callID]) s.now
      (by intro q hq; cases hq; exact hinv') hnd' hch' p hrun'
    refine ⟨u, ?_⟩
    rw [List.append_assoc] at hu
    simpa using hu

/-- Claim C9: for every sequence of reconciliations applied to an initially
absent profile, with pairwise-distinct call identifiers and nondecreasing
wall-clock instants, the resulting profile has disjoint active and resolved
issue-identifier sets, its call counter equals the length of the call
history, and its update timestamp is no earlier than its creation
timestamp. -/
theorem updateSellerProfile_invariants (g : String)
    (steps : List ReconcileStep) (p : SellerProfile)
    (hnd : (steps.map (·.analysis.callID)).Nodup)
    (hch : List.Chain' (· ≤ ·) (steps.map (·.now)))
    (hrun : runSellerProfile g none steps = some p) :
    (∀ i ∈ p.activeIssues, ∀ j ∈ p.resolvedIssues, i.issueID ≠ j.issueID)
    ∧ p.totalCalls = p.callHistory.length
    ∧ p.createdAt ≤ p.updatedAt := by
  have hch0 : List.Chain' (· ≤ ·) ((0 : Time) :: steps.map (·.now)) := by
    cases hsteps : steps.map (·.now) with
    | nil => simp
    | cons x l =>
      refine List.chain'_cons.mpr ⟨Nat.zero_le x, ?_⟩
      rw [← hsteps]
      exact hch
  obtain ⟨u, hg, hndids, _, htc, hcu, _⟩ := runSellerProfile_inv g steps none
    [] 0 (by intro q hq; cases hq) (by simpa using hnd) hch0 p hrun
  refine ⟨?_, htc, hcu⟩
  intro i hi j hj heq
  have hdisj := (List.nodup_append.mp hndids).2.2
  exact hdisj (List.mem_map.mpr ⟨i, hi, rfl⟩)
    (List.mem_map.mpr ⟨j, hj, heq.symm ▸ rfl⟩)

/-- A sample issue for concrete witnesses. -/
def sampleIssue : Issue :=
  { problem := "App crash", bucket := "App / Platform Usability",
    severity := "medium", actionableSummary := "fix app", keywords := [] }

/-- A sample call analysis for concrete witnesses. -/
def sampleAnalysis : AnalysisResult :=
  { callID := "s1", sellerID := "S9", timestamp := 3, transcriptEn := "",
    originalLang := "", issues := [sampleIssue],
    intent := { sentiment := "Positive", satisfactionScore := 8,
                promptResolution := true, overallExperience := "Good" },
    churn := { isLikelyToChurn := "low", renewalAtRisk := false,
               dissatisfactionLevel := "low", churnReason := "",
               renewalProbability := 9/10 },
    upsell := { hasOpportunity := true, score := 7,
                willingnessToInvest := "high", isGrowthOriented := true,
                interestedFeatures := [], upsellReason := "" },
    callSummary := "", agentPerformance := "Good",
    llmEscalationRequired := none, llmFollowUpNeeded := none,
    analyzedAt := 4 }

/-- A sample profile for concrete witnesses. -/
def sampleProfile : SellerProfile := newSellerProfile "H" 0

/-- Witness for claim C4 at a concrete profile and analysis. -/
theorem calculateCurrentStatus_attention_witness :
    let st := (calculateCurrentStatus sampleProfile sampleAnalysis).currentStatus
    let rc := recurringCountOf sampleProfile.activeIssues
    (st.healthScore < 40 →
      st.needsAttention = true ∧ st.attentionReason = "Critical health score")
    ∧ (40 ≤ st.healthScore → sampleAnalysis.churn.isLikelyToChurn = "high" →
        st.needsAttention = true ∧ st.attentionReason = "High churn risk")
    ∧ (40 ≤ st.healthScore → sampleAnalysis.churn.isLikelyToChurn ≠ "high" →
        0 < rc →
        st.needsAttention = true ∧
        st.attentionReason = Nat.repr rc ++ " recurring unresolved issues")
    ∧ (40 ≤ st.healthScore → sampleAnalysis.churn.isLikelyToChurn ≠ "high" →
        rc = 0 → sampleProfile.trends.overallTrend = "declining" →
        st.needsAttention = true ∧
        st.attentionReason = "Declining trend detected")
    ∧ (40 ≤ st.healthScore → sampleAnalysis.churn.isLikelyToChurn ≠ "high" →
        rc = 0 → sampleProfile.trends.overallTrend ≠ "declining" →
        st.needsAttention = false ∧ st.attentionReason = "") :=
  calculateCurrentStatus_attention sampleProfile sampleAnalysis

/-- A sample strictly increasing three-point series. -/
def samplePts : List TrendPoint :=
  [{ date := "d1", value := 0, label := "", callID := "p1" },
   { date := "d2", value := 1/2, label := "", callID := "p2" },
   { date := "d3", value := 1, label := "", callID := "p3" }]

/-- Witness for claim C5 at a concrete three-point series. -/
theorem calculateTrendDirection_spec_witness :
    (samplePts.length < 2 → calculateTrendDirection samplePts = "stable")
    ∧ (2 ≤ samplePts.length →
        calculateTrendDirection samplePts =
          (let recent := samplePts.drop (samplePts.length - 3)
           let mid := max 1 (recent.length / 2)
           let firstAvg := ((recent.take mid).map (·.value)).sum / (mid : ℚ)
           let secondAvg := ((recent.drop mid).map (·.value)).sum /
             ((recent.length - mid : Nat) : ℚ)
           if 1/10 < secondAvg - firstAvg then "improving"
           else if secondAvg - firstAvg < -(1/10) then "declining"
           else "stable"))
    ∧ (2 ≤ samplePts.length →
        calculateTrendDirection samplePts =
          calculateTrendDirection (samplePts.drop (samplePts.length - 3)))
    ∧ (∀ v : ℚ, (∀ p ∈ samplePts, p.value = v) →
        calculateTrendDirection samplePts = "stable") :=
  calculateTrendDirection_spec samplePts

/-- Witness for claim C7 at a concrete profile and resolving call. -/
theorem processIssues_resolution_policy_witness :
    let r1 := processIssuesLoop sampleProfile.gluserID sampleAnalysis.callID 7
      sampleAnalysis.issues sampleProfile.activeIssues
    let r := processIssues sampleProfile sampleAnalysis 7
    (sampleAnalysis.intent.promptResolution = false →
      r.1.activeIssues = r1.1 ∧
      (∀ t ∈ sampleProfile.activeIssues,
        t.issueID ∈ r.1.activeIssues.map (·.issueID)) ∧
      r.1.resolvedIssues = sampleProfile.resolvedIssues ∧ r.2 = 0)
    ∧ (sampleAnalysis.intent.promptResolution = true →
        r.1.activeIssues = r1.1.filter (fun t => decide (t.issueID ∈ r1.2)) ∧
        r.1.resolvedIssues = sampleProfile.resolvedIssues ++
          (r1.1.filter (fun t => !decide (t.issueID ∈ r1.2))).map
            (markResolved 7) ∧
        r.2 = (r1.1.filter (fun t => !decide (t.issueID ∈ r1.2))).length ∧
        (∀ t ∈ r1.1, t.issueID ∈ r1.2 → t ∈ r.1.activeIssues))
    ∧ (sampleAnalysis.intent.promptResolution = true →
        sampleAnalysis.issues = [] →
        r.1.activeIssues = [] ∧
        r.1.resolvedIssues = sampleProfile.resolvedIssues ++
          sampleProfile.activeIssues.map (markResolved 7) ∧
        r.2 = sampleProfile.activeIssues.length) :=
  processIssues_resolution_policy sampleProfile sampleAnalysis 7

/-- Sample period-summary buckets for the ticket-generation witness. -/
def c2Bucket1 : BucketSummary :=
  { bucket := "Payments", totalCount := 12, affectedSellers := 3,
    topProblems := [{ problem := "Refund delay", count := 12,
                      severity := "medium" }],
    severityBreakdown := [("high", 12)], examples := ["ex1"] }

/-- A second sample bucket below the critical thresholds. -/
def c2Bucket2 : BucketSummary :=
  { bucket := "Billing & Renewal", totalCount := 4, affectedSellers := 1,
    topProblems := [{ problem := "Overcharge", count := 4,
                      severity := "medium" }],
    severityBreakdown := [("medium", 4)], examples := ["ex2"] }

/-- A third sample bucket below the ticket eligibility threshold. -/
def c2Bucket3 : BucketSummary :=
  { bucket := "Communication", totalCount := 2, affectedSellers := 1,
    topProblems := [], severityBreakdown := [], examples := [] }

/-- A sample period summary for the ticket-generation witness. -/
def c2Agg : DailyAggregate :=
  { date := "2025-01-01", totalCalls := 10, totalIssues := 18,
    featureBuckets := [("Payments", c2Bucket1),
                       ("Billing & Renewal", c2Bucket2),
                       ("Communication", c2Bucket3)],
    sentimentBreakdown := [], churnRiskBreakdown := [],
    upsellOpportunities := 0, avgSatisfaction := 0, generatedAt := 0 }

/-- Witness for claim C2 at a concrete period summary. -/
theorem generateTickets_spec_witness :
    let ts := generateTickets "2025-01-01" c2Agg
    ts.length ≤ 5
    ∧ (∀ t ∈ ts, ∃ e ∈ c2Agg.featureBuckets,
        t.featureBucket = e.1 ∧ t.affectedCount = e.2.totalCount ∧
        3 ≤ e.2.totalCount)
    ∧ ts.Pairwise (fun x y => y.affectedCount ≤ x.affectedCount)
    ∧ ts.map (·.priority) = List.range' 1 ts.length
    ∧ (∀ t ∈ ts, t.severity =
        if 10 ≤ t.affectedCount then "critical"
        else if 5 ≤ t.affectedCount then "high"
        else "medium") :=
  generateTickets_spec "2025-01-01" c2Agg

/-- A sample single reconciliation for the profile-invariant witness. -/
def c9Analysis : AnalysisResult :=
  { callID := "c9", sellerID := "S2", timestamp := 5, transcriptEn := "",
    originalLang := "", issues := [sampleIssue],
    intent := { sentiment := "Neutral", satisfactionScore := 5,
                promptResolution := false, overallExperience := "Average" },
    churn := { isLikelyToChurn := "medium", renewalAtRisk := false,
               dissatisfactionLevel := "medium", churnReason := "",
               renewalProbability := 1/2 },
    upsell := { hasOpportunity := false, score := 0,
                willingnessToInvest := "low", isGrowthOriented := false,
                interestedFeatures := [], upsellReason := "" },
    callSummary := "", agentPerformance := "Average",
    llmEscalationRequired := none, llmFollowUpNeeded := none,
    analyzedAt := 5 }

/-- The profile after one concrete reconciliation. -/
def c9Profile : SellerProfile := updateSellerProfile none "G" c9Analysis none 5

/-- Witness for claim C9 at a concrete one-step run. -/
theorem updateSellerProfile_invariants_witness :
    (∀ i ∈ c9Profile.activeIssues, ∀ j ∈ c9Profile.resolvedIssues,
      i.issueID ≠ j.issueID)
    ∧ c9Profile.totalCalls = c9Profile.callHistory.length
    ∧ c9Profile.createdAt ≤ c9Profile.updatedAt :=
  updateSellerProfile_invariants "G"
    [{ analysis := c9Analysis, ht := none, now := 5 }] c9Profile
    (by decide) (by simp) rfl
